import Mathlib

/-!
# online-store-server: document store, auth middleware and resource handlers

A shallow embedding of the JavaScript sources

* `src/utils/database.js`   (class `Database`)
* `src/middleware/auth.js`  (`authenticateToken`, `requireAdmin`, `requireOwnerOrAdmin`)
* `src/routes/orders.js`, `src/routes/animals.js`, `src/routes/users.js`,
  `src/routes/auth.js`

## Modelling conventions

* JavaScript values are the type `Val`: JSON values and `undefined`.  A finite
  number is a `Dyadic`, the quotient `m / 2 ^ e` of an integer by a power of two,
  which every finite double is.  `+` and `*` form the exact result and round it to
  the nearest double, ties to even (`roundDouble`).  A numeric result that may
  fail to be finite is an `Option`, with `none` for `NaN` and the infinities.
* Objects are association lists in insertion order (`Record`); a property read is
  `get` and yields `undefined` for an absent key.
* The JSON file is the value `Document`.  `Database.read` and `Database.write` are
  assumed not to fail, so an operation is a pure function from the document before
  to the document after.  Every object a handler builds is only ever written to
  the file or sent with `res.json`, and `JSON.stringify` writes `NaN` and the
  infinities as `null` and drops properties whose value is `undefined`; the model
  applies this encoding where the object is built (`ofNum`, `ofInt`,
  `jsonObject`), so a document never holds a number that is not finite.
* Everything a handler takes from outside the repository (clock, random number,
  `jsonwebtoken`, and the built-in coercions on operands where they are not the
  identity) is a field of `Env`.
* A handler returns the document after the request and the first response sent.
-/

namespace OnlineStore

/-! ## Numbers -/

/-- A finite number `m / 2 ^ e`.  Every finite double has this form; one number has
several such forms (`1 / 2 ^ 0` and `2 / 2 ^ 1`) and `Dyadic.norm` picks the one
with the least `e`. -/
structure Dyadic where
  m : Int
  e : Nat
  deriving DecidableEq, Repr

/-- The integer `n` as a number. -/
def Dyadic.ofInt (n : Int) : Dyadic := ⟨n, 0⟩

instance instOfNatDyadic (n : Nat) : OfNat Dyadic n := ⟨⟨Int.ofNat n, 0⟩⟩

instance instNegDyadic : Neg Dyadic := ⟨fun x => ⟨-x.m, x.e⟩⟩

/-- The two forms denote the same number. -/
def Dyadic.eqv (x y : Dyadic) : Bool :=
  x.m * Int.ofNat (2 ^ y.e) == y.m * Int.ofNat (2 ^ x.e)

/-- The form of `m / 2 ^ e` with the least exponent. -/
def Dyadic.norm : Int → Nat → Dyadic
  | m, 0 => ⟨m, 0⟩
  | m, e + 1 => if m % 2 = 0 then Dyadic.norm (m / 2) e else ⟨m, e + 1⟩

/-- The exact sum. -/
def Dyadic.add (x y : Dyadic) : Dyadic :=
  ⟨x.m * Int.ofNat (2 ^ (max x.e y.e - x.e)) + y.m * Int.ofNat (2 ^ (max x.e y.e - y.e)),
   max x.e y.e⟩

/-- The exact product. -/
def Dyadic.mul (x y : Dyadic) : Dyadic := ⟨x.m * y.m, x.e + y.e⟩

/-- The integer part, rounding towards zero. -/
def Dyadic.trunc (x : Dyadic) : Int :=
  if x.m < 0 then -Int.ofNat (x.m.natAbs / 2 ^ x.e) else Int.ofNat (x.m.natAbs / 2 ^ x.e)

/-- The magnitude is in the range `1e-6 <= |x| < 1e21`, where `Number::toString`
writes a number in decimal notation without an exponent. -/
def Dyadic.decimalRange (x : Dyadic) : Bool :=
  decide (2 ^ x.e ≤ 1000000 * x.m.natAbs
    ∧ x.m.natAbs < 1000000000000000000000 * 2 ^ x.e)

/-- The quotient `n / d` rounded to the nearest integer, a tie to the even one. -/
def roundHalfEven (n d : Nat) : Nat :=
  if 2 * (n % d) < d then n / d
  else if d < 2 * (n % d) then n / d + 1
  else if (n / d) % 2 = 0 then n / d else n / d + 1

/-- Auxiliary to `log2`, with fuel. -/
def log2Fuel : Nat → Nat → Nat
  | 0, _ => 0
  | fuel + 1, n => if n < 2 then 0 else log2Fuel fuel (n / 2) + 1

/-- The position of the leading bit: the floor of the binary logarithm. -/
def log2 (n : Nat) : Nat := log2Fuel n n

/-- Rounding of an exact result to a double (IEEE 754 binary64, round to nearest,
ties to even); `none` when the result overflows to an infinity.  A number whose
least form has `|m| < 2 ^ 53` and `e <= 1074` is a double and is returned as it is.
Otherwise, with `p` the exponent of the unit in the last place (52 below the
leading bit, and not below `-1074`), the result is the multiple of `2 ^ p` nearest
to the number. -/
def roundDouble (x : Dyadic) : Option Dyadic :=
  let y := Dyadic.norm x.m x.e
  if y.m.natAbs < 9007199254740992 ∧ y.e ≤ 1074 then some y
  else
    let n := y.m.natAbs
    let p : Int := max (Int.ofNat (log2 n) - Int.ofNat y.e - 52) (-1074)
    let k := roundHalfEven (n * 2 ^ (-p).toNat) (2 ^ y.e * 2 ^ p.toNat)
    if 0 ≤ p ∧ 1024 ≤ log2 (k * 2 ^ p.toNat) then none
    else if y.m < 0 then some (Dyadic.norm (-Int.ofNat (k * 2 ^ p.toNat)) (-p).toNat)
    else some (Dyadic.norm (Int.ofNat (k * 2 ^ p.toNat)) (-p).toNat)

/-! ## Values -/

/-- JavaScript values that occur in request bodies, records and responses. -/
inductive Val where
  | undefined
  | null
  | bool (b : Bool)
  | num (x : Dyadic)
  | str (s : String)
  | arr (xs : List Val)
  | obj (fs : List (String × Val))
  deriving Repr

/-- An object: its properties in insertion order. -/
abbrev Record := List (String × Val)

/-- The JSON document: collection name to the records of the collection. -/
abbrev Document := List (String × List Record)

mutual
/-- Structural equality of values (used only to decide `=`, not by the program). -/
def Val.beq : Val → Val → Bool
  | .undefined, .undefined => true
  | .null, .null => true
  | .bool a, .bool b => a == b
  | .num a, .num b => a == b
  | .str a, .str b => a == b
  | .arr a, .arr b => Val.beqList a b
  | .obj a, .obj b => Val.beqFields a b
  | _, _ => false
/-- Structural equality of arrays. -/
def Val.beqList : List Val → List Val → Bool
  | [], [] => true
  | a :: as, b :: bs => Val.beq a b && Val.beqList as bs
  | _, _ => false
/-- Structural equality of property lists. -/
def Val.beqFields : List (String × Val) → List (String × Val) → Bool
  | [], [] => true
  | (k, a) :: as, (l, b) :: bs => k == l && Val.beq a b && Val.beqFields as bs
  | _, _ => false
end

/-- The operator `===`.  Primitives are compared by value, numbers as numbers
whatever their form.  Two arrays or objects
are equal only when they are the same reference; every comparison in the sources
has one operand from the request (URL, body or token) and the other from a freshly
parsed document, so these are never equal. -/
def strictEq : Val → Val → Bool
  | .undefined, .undefined => true
  | .null, .null => true
  | .bool a, .bool b => a == b
  | .num a, .num b => a.eqv b
  | .str a, .str b => a == b
  | _, _ => false

/-- Truthiness (`ToBoolean`): what `!x` and `if (x)` test. -/
def truthy : Val → Bool
  | .undefined => false
  | .null => false
  | .bool b => b
  | .num x => x.m != 0
  | .str s => s != ""
  | .arr _ => true
  | .obj _ => true

/-- The value is `null` or `undefined`: reading or destructuring a property of it
throws a `TypeError`. -/
def isNullish : Val → Bool
  | .null => true
  | .undefined => true
  | _ => false

/-- Property read `r[k]` (`r.k`): the first binding of `k`, `undefined` if none. -/
def get (r : Record) (k : String) : Val :=
  match r.lookup k with
  | some v => v
  | none => .undefined

/-- Property read on an arbitrary value that is neither `null` nor `undefined`:
own data properties of an object; primitives and arrays have none of the
property names used by the sources. -/
def prop (v : Val) (k : String) : Val :=
  match v with
  | .obj fs => get fs k
  | _ => .undefined

/-- Assignment `o[k] = v`: overwrite the binding in place, or append a new one. -/
def setKey {α : Type} (k : String) (v : α) : List (String × α) → List (String × α)
  | [] => [(k, v)]
  | (k1, v1) :: rest => if k1 = k then (k, v) :: rest else (k1, v1) :: setKey k v rest

/-- Object spread `{ ...a, ...b }`: the properties of `a` in their order, each
overwritten by the value `b` has for it, followed by the properties only `b` has. -/
def spread (a b : Record) : Record :=
  a.map (fun p => (p.1, match b.lookup p.1 with
                        | some v => v
                        | none => p.2))
    ++ b.filter (fun p => !(a.map Prod.fst).contains p.1)

/-- `Array.prototype.findIndex`: `none` stands for `-1`. -/
def findIndex {α : Type} (p : α → Bool) : List α → Option Nat
  | [] => none
  | x :: xs => if p x then some 0 else (findIndex p xs).map (· + 1)

/-! ## `src/utils/database.js` -/

namespace Database

/-- `Database.getCollection`: `db[collectionName] || []`. -/
def getCollection (db : Document) (collectionName : String) : List Record :=
  match db.lookup collectionName with
  | some c => c
  | none => []

/-- `Database.updateCollection`: `db[collectionName] = data`, written back. -/
def updateCollection (db : Document) (collectionName : String) (data : List Record) :
    Document :=
  setKey collectionName data db

/-- `Database.findById`: `collection.find(item => item.id === id)`. -/
def findById (db : Document) (collectionName : String) (id : Val) : Option Record :=
  (getCollection db collectionName).find? (fun item => strictEq (get item "id") id)

/-- `Database.findByField`: `collection.find(item => item[field] === value)`. -/
def findByField (db : Document) (collectionName field : String) (value : Val) :
    Option Record :=
  (getCollection db collectionName).find? (fun item => strictEq (get item field) value)

/-- `Database.addItem`: push onto the collection and write it back. -/
def addItem (db : Document) (collectionName : String) (item : Record) : Document :=
  updateCollection db collectionName (getCollection db collectionName ++ [item])

/-- `Database.updateItem`: throws `Item not found` when `findIndex` gives `-1`;
otherwise stores `{ ...collection[index], ...updates }` at that index and returns
the document written and the merged record. -/
def updateItem (db : Document) (collectionName : String) (id : Val) (updates : Record) :
    Except String (Document × Record) :=
  let collection := getCollection db collectionName
  match findIndex (fun item => strictEq (get item "id") id) collection with
  | none => .error "Item not found"
  | some index =>
    match collection[index]? with
    | none => .error "Item not found"
    | some old =>
      let merged := spread old updates
      .ok (updateCollection db collectionName (collection.set index merged), merged)

/-- `Database.deleteItem`: throws `Item not found` when the filter removed nothing;
otherwise writes the filtered collection. -/
def deleteItem (db : Document) (collectionName : String) (id : Val) :
    Except String Document :=
  let collection := getCollection db collectionName
  let filteredCollection := collection.filter (fun item => !strictEq (get item "id") id)
  if filteredCollection.length = collection.length then
    .error "Item not found"
  else
    .ok (updateCollection db collectionName filteredCollection)

end Database

/-! ## Environment and built-in coercions -/

/-- An HTTP response: status code and JSON body. -/
structure Response where
  status : Nat
  body : Val
  deriving Repr

/-- What a request handler takes from outside the repository.  The coercion fields
are consulted only on operands for which the model does not compute the built-in:
strings, arrays and objects for the numeric ones (and, for `parseInt`, numbers
that `Number::toString` writes with an exponent), strings with a character outside
ASCII for the case conversions, non-strings for `toStr`.  `none` stands for a
result that is not finite: `NaN` or an infinity. -/
structure Env where
  /-- `Date.now()` -/
  now : Nat
  /-- `new Date().toISOString()` -/
  isoNow : String
  /-- `Math.random() > 0.1` -/
  paymentSuccess : Bool
  /-- `jwt.verify(token, JWT_SECRET)`: the decoded payload, `none` when it throws -/
  verify : String → Option Record
  /-- `ToNumber` of a string, array or object -/
  toNumber : Val → Option Dyadic
  /-- The test `x <= 0` for a string, array or object `x` -/
  leZero : Val → Bool
  /-- `parseInt` of a string, array or object, or of a number outside the decimal
  range; the result of `parseInt` is an integer when it is finite -/
  parseInt : Val → Option Int
  /-- `parseFloat` of a string, array or object -/
  parseFloat : Val → Option Dyadic
  /-- `String.prototype.toLowerCase` of a string that is not ASCII -/
  toLowerCase : String → String
  /-- `s.charAt(0).toUpperCase() + s.slice(1).toLowerCase()` of a string `s` that is
  not ASCII -/
  capitalize : String → String
  /-- `ToString` of a value that is not a string -/
  toStr : Val → String
  /-- `bcrypt.hash(password, 10)` of a string -/
  hash : String → String
  /-- `bcrypt.compare(candidate, stored)` of two strings -/
  compare : String → String → Bool
  /-- `jwt.sign` of the payload that carries this username -/
  sign : Val → String

/-- A numeric result as `JSON.stringify` writes it: `NaN` and the infinities are
written `null`. -/
def ofNum : Option Dyadic → Val
  | some x => .num x
  | none => .null

/-- An integer result as `JSON.stringify` writes it. -/
def ofInt : Option Int → Val
  | some n => .num (Dyadic.ofInt n)
  | none => .null

/-- An object literal as `JSON.stringify` writes it: a property whose value is
`undefined` is left out. -/
def jsonObject (fields : Record) : Record :=
  fields.filter (fun p => match p.2 with
                          | .undefined => false
                          | _ => true)

/-- `ToNumber`. -/
def jsToNumber (env : Env) : Val → Option Dyadic
  | .num x => some x
  | .undefined => none
  | .null => some 0
  | .bool b => some (if b then 1 else 0)
  | v => env.toNumber v

/-- The test `x <= 0`: `x` is converted to a number; `NaN <= 0` is false. -/
def leZero (env : Env) : Val → Bool
  | .num x => decide (x.m ≤ 0)
  | .undefined => false
  | .null => true
  | .bool b => !b
  | v => env.leZero v

/-- The product `a * b`: both operands to numbers, exact product, rounded. -/
def jsMul (env : Env) (a b : Val) : Option Dyadic :=
  match jsToNumber env a, jsToNumber env b with
  | some x, some y => roundDouble (x.mul y)
  | _, _ => none

/-- The sum of two numbers: exact sum, rounded.  A term that is not finite makes
the sum not finite. -/
def jsAdd : Option Dyadic → Option Dyadic → Option Dyadic
  | some x, some y => roundDouble (x.add y)
  | _, _ => none

/-- `parseInt(v)` parses the string form of `v`.  A number in the decimal range is
written without an exponent, so the result is its integer part; zero gives zero;
`undefined`, `null` and booleans give `NaN`. -/
def jsParseInt (env : Env) : Val → Option Int
  | .num x =>
    if x.m = 0 then some 0
    else if x.decimalRange then some x.trunc
    else env.parseInt (.num x)
  | .str s => env.parseInt (.str s)
  | .arr xs => env.parseInt (.arr xs)
  | .obj fs => env.parseInt (.obj fs)
  | _ => none

/-- `parseFloat(v)` parses the string form of `v`, which for a number gives the
number back; `undefined`, `null` and booleans give `NaN`. -/
def jsParseFloat (env : Env) : Val → Option Dyadic
  | .num x => some x
  | .str s => env.parseFloat (.str s)
  | .arr xs => env.parseFloat (.arr xs)
  | .obj fs => env.parseFloat (.obj fs)
  | _ => none

/-- Template-literal interpolation of a value. -/
def jsToString (env : Env) : Val → String
  | .str s => s
  | v => env.toStr v

/-- All characters are ASCII. -/
def isAscii (s : String) : Bool :=
  s.data.all (fun c => decide (c.toNat < 128))

/-- `s.toLowerCase()`. -/
def toLowerCase (env : Env) (s : String) : String :=
  if isAscii s then String.mk (s.data.map Char.toLower) else env.toLowerCase s

/-- `s.charAt(0).toUpperCase() + s.slice(1).toLowerCase()`. -/
def capitalize (env : Env) (s : String) : String :=
  if isAscii s then
    match s.data with
    | [] => ""
    | c :: cs => String.mk (c.toUpper :: cs.map Char.toLower)
  else env.capitalize s

/-- `authHeader.split(' ')`, on the characters of the header. -/
def splitSpace : List Char → List (List Char)
  | [] => [[]]
  | c :: cs =>
    match splitSpace cs with
    | [] => [[]]
    | w :: ws => if c = ' ' then [] :: w :: ws else (c :: w) :: ws

/-- An error body `{ error: msg }`. -/
def errorBody (msg : String) : Val := .obj [("error", .str msg)]

/-- The reply `res.status(code).json({ error: msg })`. -/
def fail (code : Nat) (msg : String) : Response := ⟨code, errorBody msg⟩

/-! ## `src/middleware/auth.js` -/

/-- An incoming request: the `authorization` header, the route parameters and the
parsed JSON body. -/
structure Request where
  authorization : Option String
  params : List (String × String)
  body : Record

/-- `req.params[name]`: a string, or `undefined` when the route has no such
parameter. -/
def Request.param (req : Request) (name : String) : Val :=
  match req.params.lookup name with
  | some s => .str s
  | none => .undefined

/-- What a middleware does: answer, or call `next` (for `authenticateToken`, after
setting `req.user`). -/
inductive Gate (α : Type) where
  | respond (r : Response)
  | next (a : α)
  deriving Repr

/-- `authHeader && authHeader.split(' ')[1]`, as the token when it is truthy. -/
def bearerToken (authHeader : Option String) : Option String :=
  match authHeader with
  | none => none
  | some h =>
    if h = "" then none
    else
      match (splitSpace h.data)[1]? with
      | none => none
      | some t => if t = [] then none else some (String.mk t)

/-- `authenticateToken`: 401 without a token, 403 when `jwt.verify` throws, 401 when
no user has the username of the payload, otherwise `req.user = user; next()`. -/
def authenticateToken (env : Env) (db : Document) (authHeader : Option String) :
    Gate Record :=
  match bearerToken authHeader with
  | none => .respond (fail 401 "Access token required")
  | some token =>
    match env.verify token with
    | none => .respond (fail 403 "Invalid or expired token")
    | some decoded =>
      match Database.findByField db "users" "username" (get decoded "username") with
      | none => .respond (fail 401 "Invalid token")
      | some user => .next user

/-- `requireAdmin`: 403 unless `req.user.role === 'admin'`. -/
def requireAdmin (user : Record) : Gate Unit :=
  if !strictEq (get user "role") (.str "admin") then
    .respond (fail 403 "Admin access required")
  else .next ()

/-- `requireOwnerOrAdmin(usernameParam)`: `next()` when the user is an admin or
`req.user.username === req.params[usernameParam]`, else 403. -/
def requireOwnerOrAdmin (usernameParam : String) (user : Record) (req : Request) :
    Gate Unit :=
  let targetUsername := req.param usernameParam
  if strictEq (get user "role") (.str "admin")
      || strictEq (get user "username") targetUsername then
    .next ()
  else .respond (fail 403 "Access denied")

/-! ## `src/routes/orders.js` -/

/-- The validation loop of `POST /orders/checkout` over the remaining `items`, with
the `orderItems` pushed and `totalAmount` accumulated so far.  An answer sent from
inside the loop ends the handler; destructuring `null` or `undefined` throws, which
the handler turns into a 500. -/
def checkoutLoop (env : Env) (animals : List Record) :
    List Val → List Record → Option Dyadic →
      Except Response (List Record × Option Dyadic)
  | [], orderItems, totalAmount => .ok (orderItems, totalAmount)
  | item :: rest, orderItems, totalAmount =>
    if isNullish item then .error (fail 500 "Checkout failed")
    else
      let animal_id := prop item "animal_id"
      let quantity := prop item "quantity"
      if !truthy animal_id || !truthy quantity || leZero env quantity then
        .error (fail 400 "Invalid item data")
      else
        match animals.find? (fun a => strictEq (get a "id") animal_id) with
        | none => .error (fail 404 ("Animal " ++ jsToString env animal_id ++ " not found"))
        | some animal =>
          if !strictEq quantity (.num 1) then
            .error (fail 400 "Quantity must be 1 for animal purchases")
          else
            let itemTotal := jsMul env (get animal "price") quantity
            checkoutLoop env animals rest
              (orderItems ++ [jsonObject [("animal_id", animal_id), ("quantity", quantity),
                                          ("price", get animal "price")]])
              (jsAdd totalAmount itemTotal)

/-- The order record built by `POST /orders/checkout`. -/
def newOrder (env : Env) (user : Record) (ship_address : Val) (orderItems : List Record) :
    Record :=
  jsonObject
    [("id", .str ("order_" ++ toString env.now)),
     ("username", get user "username"),
     ("order_date", .str env.isoNow),
     ("ship_address", ship_address),
     ("items", .arr (orderItems.map Val.obj))]

/-- The handler of `POST /orders/checkout`, run with `req.user = user`. -/
def checkout (env : Env) (db : Document) (user : Record) (body : Record) :
    Document × Response :=
  let ship_address := get body "ship_address"
  match get body "items" with
  | .arr (i :: is) =>
    if !truthy ship_address then (db, fail 400 "Shipping address required")
    else
      let animals := Database.getCollection db "animals"
      match checkoutLoop env animals (i :: is) [] (some 0) with
      | .error r => (db, r)
      | .ok (orderItems, totalAmount) =>
        if !env.paymentSuccess then (db, fail 400 "Payment processing failed")
        else
          let remainingAnimals := animals.filter (fun animal =>
            !orderItems.any (fun item => strictEq (get item "animal_id") (get animal "id")))
          let db1 := Database.updateCollection db "animals" remainingAnimals
          let order := newOrder env user ship_address orderItems
          let db2 := Database.addItem db1 "orders" order
          (db2, ⟨201, .obj [("message", .str "Order placed successfully"),
                            ("order", .obj order),
                            ("total_amount", ofNum totalAmount),
                            ("payment_status", .str "completed")]⟩)
  | _ => (db, fail 400 "Items array required")

/-- The route `POST /orders/checkout`: `authenticateToken`, then the handler. -/
def checkoutRoute (env : Env) (db : Document) (req : Request) : Document × Response :=
  match authenticateToken env db req.authorization with
  | .respond r => (db, r)
  | .next user => checkout env db user req.body

/-! ## `src/routes/animals.js` -/

/-- The whitelist `validFarmAnimals`. -/
def validFarmAnimals : List String :=
  ["cow", "chicken", "sheep", "goat", "horse", "duck", "turkey", "goose", "llama",
   "alpaca", "donkey", "mule"]

/-- The inline list of accepted genders. -/
def validGenders : List String := ["male", "female"]

/-- The reply to an animal type outside the whitelist. -/
def invalidTypeReply : Response :=
  ⟨400, .obj [("error", .str "Invalid animal type. Must be a farm animal."),
              ("valid_types", .arr (validFarmAnimals.map Val.str))]⟩

/-- The reply to a gender other than male or female. -/
def invalidGenderReply : Response :=
  fail 400 "Animal gender must be either \"male\" or \"female\""

/-- The record built by `POST /animals` from a type `t` and a gender `g` that passed
validation. -/
def newAnimal (env : Env) (body : Record) (t g : String) : Record :=
  [("id", .str ("animal_" ++ toString env.now)),
   ("timestamp", .str env.isoNow),
   ("animal_type", .str (capitalize env t)),
   ("age", ofInt (jsParseInt env (get body "age"))),
   ("weight", ofNum (jsParseFloat env (get body "weight"))),
   ("price", ofNum (jsParseFloat env (get body "price"))),
   ("animal_name", get body "animal_name"),
   ("animal_gender", .str (capitalize env g))]

/-- The handler of `POST /animals`.  Calling `toLowerCase` on a truthy value that is
not a string throws, which the handler turns into a 500. -/
def createAnimal (env : Env) (db : Document) (body : Record) : Document × Response :=
  let animal_type := get body "animal_type"
  let animal_gender := get body "animal_gender"
  if !truthy animal_type || !truthy (get body "age") || !truthy (get body "weight")
      || !truthy (get body "price") || !truthy (get body "animal_name")
      || !truthy animal_gender then
    (db, fail 400
      "Missing required fields: animal_type, age, weight, price, animal_name, animal_gender")
  else
    match animal_type with
    | .str t =>
      if !validFarmAnimals.contains (toLowerCase env t) then (db, invalidTypeReply)
      else
        match animal_gender with
        | .str g =>
          if !validGenders.contains (toLowerCase env g) then (db, invalidGenderReply)
          else
            let animal := newAnimal env body t g
            (Database.addItem db "animals" animal, ⟨201, .obj animal⟩)
        | _ => (db, fail 500 "Failed to create animal record")
    | _ => (db, fail 500 "Failed to create animal record")

/-- The route `POST /animals`: `authenticateToken`, `requireAdmin`, handler. -/
def createAnimalRoute (env : Env) (db : Document) (req : Request) : Document × Response :=
  match authenticateToken env db req.authorization with
  | .respond r => (db, r)
  | .next user =>
    match requireAdmin user with
    | .respond r => (db, r)
    | .next _ => createAnimal env db req.body

/-- `allowedUpdates` of `PATCH /animals/:id`. -/
def allowedAnimalUpdates : List String :=
  ["animal_type", "age", "weight", "price", "animal_name", "animal_gender"]

/-- The handler state while `PATCH /animals/:id` walks the keys of the body:
`filteredUpdates`, and the response a callback has already sent, if any. -/
structure PatchState where
  filteredUpdates : Record
  sent : Option Response
  deriving Repr

/-- The assignment `filteredUpdates[key] = v`. -/
def PatchState.assign (st : PatchState) (key : String) (v : Val) : PatchState :=
  ⟨setKey key v st.filteredUpdates, st.sent⟩

/-- `return res.status(..).json(..)` inside the `forEach` callback: it leaves the
callback only, so the walk goes on.  A second send throws (headers already sent);
the error carries the response that was sent first. -/
def PatchState.send (st : PatchState) (r : Response) : Except (Option Response) PatchState :=
  match st.sent with
  | none => .ok ⟨st.filteredUpdates, some r⟩
  | some first => .error (some first)

/-- The `forEach` callback of `PATCH /animals/:id` for one key.  Calling
`toLowerCase` on a value that is not a string throws. -/
def patchAnimalKey (env : Env) (updates : Record) (st : PatchState) (key : String) :
    Except (Option Response) PatchState :=
  if allowedAnimalUpdates.contains key then
    if key = "age" then .ok (st.assign key (ofInt (jsParseInt env (get updates key))))
    else if key = "weight" ∨ key = "price" then
      .ok (st.assign key (ofNum (jsParseFloat env (get updates key))))
    else if key = "animal_type" then
      match get updates key with
      | .str t =>
        if !validFarmAnimals.contains (toLowerCase env t) then st.send invalidTypeReply
        else .ok (st.assign key (.str (capitalize env t)))
      | _ => .error st.sent
    else if key = "animal_gender" then
      match get updates key with
      | .str g =>
        if !validGenders.contains (toLowerCase env g) then st.send invalidGenderReply
        else .ok (st.assign key (.str (capitalize env g)))
      | _ => .error st.sent
    else .ok (st.assign key (get updates key))
  else .ok st

/-- `Object.keys(updates).forEach(...)` over the remaining keys. -/
def patchAnimalKeys (env : Env) (updates : Record) :
    List String → PatchState → Except (Option Response) PatchState
  | [], st => .ok st
  | key :: rest, st =>
    match patchAnimalKey env updates st key with
    | .error e => .error e
    | .ok st1 => patchAnimalKeys env updates rest st1

/-- The response the client receives: the one sent first.  A later send throws
inside the handler and reaches nobody. -/
def firstSent (sent : Option Response) (r : Response) : Response :=
  match sent with
  | some first => first
  | none => r

/-- The handler of `PATCH /animals/:id`. -/
def patchAnimal (env : Env) (db : Document) (id : Val) (updates : Record) :
    Document × Response :=
  match patchAnimalKeys env updates (updates.map Prod.fst) ⟨[], none⟩ with
  | .error sent => (db, firstSent sent (fail 500 "Failed to update animal"))
  | .ok st =>
    if st.filteredUpdates.length = 0 then
      (db, firstSent st.sent (fail 400 "No valid updates provided"))
    else
      match Database.updateItem db "animals" id st.filteredUpdates with
      | .error msg =>
        if msg = "Item not found" then (db, firstSent st.sent (fail 404 "Animal not found"))
        else (db, firstSent st.sent (fail 500 "Failed to update animal"))
      | .ok (db1, updatedAnimal) => (db1, firstSent st.sent ⟨200, .obj updatedAnimal⟩)

/-- The handler of `DELETE /animals/:id`. -/
def deleteAnimal (db : Document) (id : Val) : Document × Response :=
  match Database.deleteItem db "animals" id with
  | .error msg =>
    if msg = "Item not found" then (db, fail 404 "Animal not found")
    else (db, fail 500 "Failed to delete animal record")
  | .ok db1 => (db1, ⟨200, .obj [("message", .str "Animal record deleted successfully")]⟩)

/-- Run a handler behind `authenticateToken` and `requireAdmin`. -/
def adminRoute (env : Env) (db : Document) (req : Request)
    (handler : Document × Response) : Document × Response :=
  match authenticateToken env db req.authorization with
  | .respond r => (db, r)
  | .next user =>
    match requireAdmin user with
    | .respond r => (db, r)
    | .next _ => handler

/-- The route `PATCH /animals/:id`. -/
def patchAnimalRoute (env : Env) (db : Document) (req : Request) : Document × Response :=
  adminRoute env db req (patchAnimal env db (req.param "id") req.body)

/-- The route `DELETE /animals/:id`. -/
def deleteAnimalRoute (env : Env) (db : Document) (req : Request) : Document × Response :=
  adminRoute env db req (deleteAnimal db (req.param "id"))

/-! ## `src/routes/users.js` -/

/-- The rest pattern `password, ...safeUser` applied to a user: the record without
its password. -/
def safeUser (user : Record) : Record :=
  user.filter (fun p => p.1 != "password")

/-- `allowedUpdates` of `PATCH /users/:username`: admins may also set `role`. -/
def allowedUserUpdates (actor : Record) : List String :=
  ["street_address", "email", "first", "last"]
    ++ (if strictEq (get actor "role") (.str "admin") then ["role"] else [])

/-- The handler of `PATCH /users/:username`, run with `req.user = actor` and
`req.params.username = username`. -/
def patchUser (db : Document) (actor : Record) (username : Val) (updates : Record) :
    Document × Response :=
  let filteredUpdates := updates.filter (fun p => (allowedUserUpdates actor).contains p.1)
  if filteredUpdates.length = 0 then (db, fail 400 "No valid updates provided")
  else
    let taken :=
      if truthy (get filteredUpdates "email") then
        match Database.findByField db "users" "email" (get filteredUpdates "email") with
        | some existingUser => !strictEq (get existingUser "username") username
        | none => false
      else false
    if taken then (db, fail 409 "Email already in use")
    else
      let users := Database.getCollection db "users"
      match findIndex (fun user => strictEq (get user "username") username) users with
      | none => (db, fail 404 "User not found")
      | some userIndex =>
        match users[userIndex]? with
        | none => (db, fail 404 "User not found")
        | some old =>
          let merged := spread old filteredUpdates
          (Database.updateCollection db "users" (users.set userIndex merged),
           ⟨200, .obj (safeUser merged)⟩)

/-- Run a handler behind `authenticateToken` and `requireOwnerOrAdmin()`. -/
def ownerRoute (env : Env) (db : Document) (req : Request)
    (handler : Record → Document × Response) : Document × Response :=
  match authenticateToken env db req.authorization with
  | .respond r => (db, r)
  | .next user =>
    match requireOwnerOrAdmin "username" user req with
    | .respond r => (db, r)
    | .next _ => handler user

/-- The route `PATCH /users/:username`. -/
def patchUserRoute (env : Env) (db : Document) (req : Request) : Document × Response :=
  ownerRoute env db req (fun user => patchUser db user (req.param "username") req.body)

/-- The handler of `GET /users`. -/
def getUsers (db : Document) : Document × Response :=
  let users := Database.getCollection db "users"
  (db, ⟨200, .arr (users.map (fun user => Val.obj (safeUser user)))⟩)

/-- The route `GET /users`: `authenticateToken`, `requireAdmin`, handler. -/
def getUsersRoute (env : Env) (db : Document) (req : Request) : Document × Response :=
  adminRoute env db req (getUsers db)

/-- The handler of `GET /users/:username`. -/
def getUser (db : Document) (username : Val) : Document × Response :=
  match Database.findByField db "users" "username" username with
  | none => (db, fail 404 "User not found")
  | some user => (db, ⟨200, .obj (safeUser user)⟩)

/-- The route `GET /users/:username`: `authenticateToken`, `requireOwnerOrAdmin()`,
handler. -/
def getUserRoute (env : Env) (db : Document) (req : Request) : Document × Response :=
  ownerRoute env db req (fun _ => getUser db (req.param "username"))

/-! ## `src/routes/auth.js` -/

/-- The user record built by `POST /auth/register` from a body whose password is the
string `password`. -/
def newUser (env : Env) (body : Record) (password : String) : Record :=
  [("username", get body "username"),
   ("street_address",
      if truthy (get body "street_address") then get body "street_address" else .str ""),
   ("email", get body "email"),
   ("password", .str (env.hash password)),
   ("first", get body "first"),
   ("last", get body "last"),
   ("role", .str "user")]

/-- The handler (and route) of `POST /auth/register`.  `bcrypt.hash` throws on a
password that is not a string, which the handler turns into a 500. -/
def register (env : Env) (db : Document) (body : Record) : Document × Response :=
  let username := get body "username"
  let email := get body "email"
  if !truthy username || !truthy (get body "password") || !truthy email
      || !truthy (get body "first") || !truthy (get body "last") then
    (db, fail 400 "Missing required fields")
  else
    match Database.findByField db "users" "username" username with
    | some _ => (db, fail 409 "Username already exists")
    | none =>
      match Database.findByField db "users" "email" email with
      | some _ => (db, fail 409 "Email already registered")
      | none =>
        match get body "password" with
        | .str password =>
          let user := newUser env body password
          (Database.addItem db "users" user,
           ⟨201, .obj [("message", .str "User created successfully"),
                       ("token", .str (env.sign username)),
                       ("user", .obj [("username", get user "username"),
                                      ("email", get user "email"),
                                      ("first", get user "first"),
                                      ("last", get user "last"),
                                      ("role", get user "role")])]⟩)
        | _ => (db, fail 500 "Registration failed")

/-! ## A concrete environment for worked examples -/

/-- An environment in which every token is rejected, the payment goes through and
the delegated coercions give `NaN`. -/
def sampleEnv : Env :=
  ⟨5, "2024-01-01T00:00:00.000Z", true, fun _ => none, fun _ => none, fun _ => false,
   fun _ => none, fun _ => none, id, id, fun _ => "", id, fun _ _ => false, fun _ => ""⟩

/-- An environment like `sampleEnv` whose `jwt.verify` accepts every token and reads
it as the username claim. -/
def tokenEnv : Env :=
  ⟨5, "2024-01-01T00:00:00.000Z", true, fun token => some [("username", .str token)],
   fun _ => none, fun _ => false, fun _ => none, fun _ => none, id, id, fun _ => "", id,
   fun _ _ => false, fun _ => ""⟩

/-- A document with two animals for sale and no orders. -/
def farmDb : Document :=
  [("users", [[("username", .str "ann"), ("email", .str "ann@farm.test"),
               ("password", .str "h1"), ("role", .str "user")]]),
   ("animals", [[("id", .str "animal_1"), ("animal_type", .str "Cow"), ("price", .num 500)],
                [("id", .str "animal_2"), ("animal_type", .str "Goat"), ("price", .num 120)]]),
   ("orders", [])]

/-- The user record of `ann` in `farmDb`. -/
def annUser : Record :=
  [("username", .str "ann"), ("email", .str "ann@farm.test"), ("password", .str "h1"),
   ("role", .str "user")]

/-- A checkout body buying `animal_1` once. -/
def buyOne : Record :=
  [("items", .arr [.obj [("animal_id", .str "animal_1"), ("quantity", .num 1)]]),
   ("ship_address", .str "1 Farm Road")]

/-- A checkout body that lists `animal_1` twice. -/
def buyTwice : Record :=
  [("items", .arr [.obj [("animal_id", .str "animal_1"), ("quantity", .num 1)],
                   .obj [("animal_id", .str "animal_1"), ("quantity", .num 1)]]),
   ("ship_address", .str "1 Farm Road")]

/-- A valid `POST /animals` body with the given `animal_type` and `age`. -/
def animalBody (animal_type : String) (age : Int) : Record :=
  [("animal_type", .str animal_type), ("age", .num (Dyadic.ofInt age)), ("weight", .num 300),
   ("price", .num 500), ("animal_name", .str "Bella"), ("animal_gender", .str "female")]

/-- A document with two registered users. -/
def twoUsersDb : Document :=
  [("users", [[("username", .str "ann"), ("email", .str "ann@farm.test"),
               ("password", .str "h1"), ("role", .str "user")],
              [("username", .str "bob"), ("email", .str "bob@farm.test"),
               ("password", .str "h2"), ("role", .str "user")]]),
   ("animals", []),
   ("orders", [])]

/-- The request `PATCH /users/<name>` sent by `<name>` with an empty email. -/
def clearEmail (name : String) : Request :=
  ⟨some ("Bearer " ++ name), [("username", name)], [("email", .str "")]⟩

/-- A document with one animal and the admin `root`. -/
def adminDb : Document :=
  [("users", [[("username", .str "root"), ("email", .str "root@farm.test"),
               ("password", .str "h0"), ("role", .str "admin")]]),
   ("animals", [[("id", .str "animal_1"), ("animal_type", .str "Cow"), ("price", .num 500)]]),
   ("orders", [])]

/-- The request `PATCH /animals/animal_1` sent by `root` with an animal type outside
the whitelist and a new price. -/
def dragonPatch : Request :=
  ⟨some "Bearer root", [("id", "animal_1")],
   [("animal_type", .str "dragon"), ("price", .num 1)]⟩

/-- A registration body for the username `cat`. -/
def catBody (email : String) : Record :=
  [("username", .str "cat"), ("password", .str "secret"), ("email", .str email),
   ("first", .str "Cat"), ("last", .str "Field")]

/-- A document whose two animals are priced `2 ^ 53` and `1`. -/
def dearFarmDb : Document :=
  [("users", [[("username", .str "ann"), ("email", .str "ann@farm.test"),
               ("password", .str "h1"), ("role", .str "user")]]),
   ("animals", [[("id", .str "animal_1"), ("animal_type", .str "Cow"),
                 ("price", .num 9007199254740992)],
                [("id", .str "animal_2"), ("animal_type", .str "Goat"), ("price", .num 1)]]),
   ("orders", [])]

/-- A checkout body buying `animal_1` and `animal_2`, once each. -/
def buyBoth : Record :=
  [("items", .arr [.obj [("animal_id", .str "animal_1"), ("quantity", .num 1)],
                   .obj [("animal_id", .str "animal_2"), ("quantity", .num 1)]]),
   ("ship_address", .str "1 Farm Road")]

/-- A document whose only animal has the empty string as its id. -/
def blankIdDb : Document :=
  [("users", [[("username", .str "ann"), ("email", .str "ann@farm.test"),
               ("password", .str "h1"), ("role", .str "user")]]),
   ("animals", [[("id", .str ""), ("animal_type", .str "Cow"), ("price", .num 500)]]),
   ("orders", [])]

/-- A checkout body buying the animal whose id is the empty string. -/
def buyBlank : Record :=
  [("items", .arr [.obj [("animal_id", .str ""), ("quantity", .num 1)]]),
   ("ship_address", .str "1 Farm Road")]

/-- A registration body whose username is the array `["cat"]`. -/
def catArrayBody (email : String) : Record :=
  [("username", .arr [.str "cat"]), ("password", .str "secret"), ("email", .str email),
   ("first", .str "Cat"), ("last", .str "Field")]

/-! # Theorems -/

/-! ## Decidable equality of values, records and results -/

mutual
theorem Val.beq_iff : ∀ (a b : Val), Val.beq a b = true ↔ a = b
  | .undefined, b => by cases b <;> simp [Val.beq]
  | .null, b => by cases b <;> simp [Val.beq]
  | .bool a, b => by cases b <;> simp [Val.beq]
  | .num a, b => by cases b <;> simp [Val.beq]
  | .str a, b => by cases b <;> simp [Val.beq]
  | .arr a, b => by cases b <;> simp [Val.beq, Val.beqList_iff]
  | .obj a, b => by cases b <;> simp [Val.beq, Val.beqFields_iff]
theorem Val.beqList_iff : ∀ (a b : List Val), Val.beqList a b = true ↔ a = b
  | [], b => by cases b <;> simp [Val.beqList]
  | a :: as, b => by cases b <;> simp [Val.beqList, Val.beq_iff, Val.beqList_iff]
theorem Val.beqFields_iff :
    ∀ (a b : List (String × Val)), Val.beqFields a b = true ↔ a = b
  | [], b => by cases b <;> simp [Val.beqFields]
  | (k, a) :: as, b => by
    cases b with
    | nil => simp [Val.beqFields]
    | cons p bs =>
      cases p
      simp [Val.beqFields, Val.beq_iff, Val.beqFields_iff, and_assoc]
end

instance : DecidableEq Val := fun a b =>
  decidable_of_iff (Val.beq a b = true) (Val.beq_iff a b)

instance instDecidableEqRecord : DecidableEq Record := inferInstance

instance instDecidableEqRecords : DecidableEq (List Record) := inferInstance

instance instDecidableEqDocument : DecidableEq Document := inferInstance

deriving instance DecidableEq for Except

deriving instance DecidableEq for Response, Gate, PatchState

open Database


/-! ## Association lists -/

theorem lookup_setKey_self {α : Type} (k : String) (v : α) (l : List (String × α)) :
    (setKey k v l).lookup k = some v := by
  induction l with
  | nil => simp [setKey, List.lookup]
  | cons p rest ih =>
    obtain ⟨k1, v1⟩ := p
    by_cases h : k1 = k
    · simp [setKey, h, List.lookup]
    · have h2 : (k == k1) = false := by simpa using fun e => h e.symm
      simp [setKey, h, List.lookup, h2, ih]

theorem lookup_setKey_ne {α : Type} (k k2 : String) (v : α) (l : List (String × α))
    (hne : k2 ≠ k) : (setKey k v l).lookup k2 = l.lookup k2 := by
  induction l with
  | nil =>
    have h2 : (k2 == k) = false := by simpa using hne
    simp [setKey, List.lookup, h2]
  | cons p rest ih =>
    obtain ⟨k1, v1⟩ := p
    by_cases h : k1 = k
    · subst h
      have h2 : (k2 == k1) = false := by simpa using hne
      simp [setKey, List.lookup, h2]
    · simp only [setKey, h, if_false, List.lookup]
      cases (k2 == k1) <;> simp [ih]

theorem getCollection_updateCollection_self (db : Document) (c : String) (data : List Record) :
    getCollection (updateCollection db c data) c = data := by
  simp [getCollection, updateCollection, lookup_setKey_self]

theorem getCollection_updateCollection_ne (db : Document) (c c2 : String)
    (data : List Record) (hne : c2 ≠ c) :
    getCollection (updateCollection db c data) c2 = getCollection db c2 := by
  simp [getCollection, updateCollection, lookup_setKey_ne _ _ _ _ hne]

theorem filter_length_eq_iff {α : Type} (p : α → Bool) (l : List α) :
    (l.filter p).length = l.length ↔ ∀ x ∈ l, p x = true := by
  induction l with
  | nil => simp
  | cons x xs ih =>
    by_cases hx : p x = true
    · simp [List.filter_cons, hx, ih]
    · have hle := List.length_filter_le p xs
      have hx2 : p x = false := by simpa using hx
      simp only [List.filter_cons, hx2, List.length_cons, List.mem_cons,
        forall_eq_or_imp, false_and, iff_false]
      simp only [Bool.false_eq_true, if_false, false_and, iff_false]
      omega

/-- C4. `deleteItem` throws `Item not found` exactly when no record of the
collection has the id (and `DELETE /animals/:id` then answers 404 and returns the
document as it was); when some record has the id it succeeds, and the collection
written is the old one filtered: no record with the id is left, every other record
is kept, in the original order, and the other collections are untouched. -/
theorem deleteItem_not_found_iff (db : Document) (collectionName : String) (id : Val) :
    (deleteItem db collectionName id = .error "Item not found"
        ↔ ∀ r ∈ getCollection db collectionName, strictEq (get r "id") id = false)
    ∧ ((deleteAnimal db id).2.status = 404
        ↔ ∀ r ∈ getCollection db "animals", strictEq (get r "id") id = false)
    ∧ ((deleteAnimal db id).2.status = 404 → (deleteAnimal db id).1 = db)
    ∧ ((∃ r ∈ getCollection db collectionName, strictEq (get r "id") id = true)
        → ∃ db1, deleteItem db collectionName id = .ok db1)
    ∧ (∀ db1, deleteItem db collectionName id = .ok db1 →
        getCollection db1 collectionName
            = (getCollection db collectionName).filter
                (fun r => !strictEq (get r "id") id)
          ∧ (∀ r ∈ getCollection db1 collectionName, strictEq (get r "id") id = false)
          ∧ (∀ r ∈ getCollection db collectionName, strictEq (get r "id") id = false →
              r ∈ getCollection db1 collectionName)
          ∧ (getCollection db1 collectionName).Sublist (getCollection db collectionName)
          ∧ (∀ c2, c2 ≠ collectionName → getCollection db1 c2 = getCollection db c2)) := by
  have key : ∀ c : String,
      ((getCollection db c).filter (fun r => !strictEq (get r "id") id)).length
          = (getCollection db c).length
        ↔ ∀ r ∈ getCollection db c, strictEq (get r "id") id = false := by
    intro c
    rw [filter_length_eq_iff]
    simp
  refine ⟨?_, ?_, ?_, ?_, ?_⟩
  · unfold deleteItem
    simp only []
    split_ifs with h
    · simpa using (key collectionName).1 h
    · simp only [false_iff, reduceCtorEq]
      exact fun hall => h ((key collectionName).2 hall)
  · unfold deleteAnimal deleteItem
    simp only []
    split_ifs with h
    · simpa [fail] using (key "animals").1 h
    · have h404 : ¬ (200 : Nat) = 404 := by decide
      simp only [h404, false_iff]
      intro hall
      exact absurd ((key "animals").2 hall) h
  · unfold deleteAnimal deleteItem
    simp only []
    split_ifs with h
    · simp
    · simp
  · rintro ⟨r, hr, hid⟩
    unfold deleteItem
    simp only []
    split_ifs with h
    · have := (key collectionName).1 h r hr
      simp [hid] at this
    · exact ⟨_, rfl⟩
  · intro db1 hok
    unfold deleteItem at hok
    simp only [] at hok
    split_ifs at hok with h
    injection hok with hdb
    subst hdb
    rw [getCollection_updateCollection_self]
    refine ⟨rfl, ?_, ?_, List.filter_sublist _, ?_⟩
    · intro r hr
      simpa using (List.mem_filter.1 hr).2
    · intro r hr hid
      exact List.mem_filter.2 ⟨hr, by simp [hid]⟩
    · intro c2 hne
      exact getCollection_updateCollection_ne _ _ _ _ hne


theorem lookup_append_eq {α : Type} (k : String) (l1 l2 : List (String × α)) :
    (l1 ++ l2).lookup k = match l1.lookup k with
                          | some v => some v
                          | none => l2.lookup k := by
  induction l1 with
  | nil => simp [List.lookup]
  | cons p rest ih =>
    obtain ⟨k1, v1⟩ := p
    simp only [List.cons_append, List.lookup]
    cases (k == k1) <;> simp [ih]

theorem lookup_map_val {α : Type} (k : String) (h : String → α → α) (l : List (String × α)) :
    (l.map (fun p => (p.1, h p.1 p.2))).lookup k = (l.lookup k).map (h k) := by
  induction l with
  | nil => simp [List.lookup]
  | cons p rest ih =>
    obtain ⟨k1, v1⟩ := p
    simp only [List.map_cons, List.lookup]
    by_cases hk : k = k1
    · subst hk
      simp
    · have h2 : (k == k1) = false := by simpa using hk
      simp [h2, ih]

theorem lookup_filter_key {α : Type} (k : String) (r : String → Bool)
    (l : List (String × α)) :
    (l.filter (fun p => r p.1)).lookup k = if r k then l.lookup k else none := by
  induction l with
  | nil => simp [List.lookup]
  | cons p rest ih =>
    obtain ⟨k1, v1⟩ := p
    by_cases hk : k = k1
    · subst hk
      by_cases hr : r k = true
      · simp [List.filter_cons, hr, List.lookup]
      · have hr2 : r k = false := by simpa using hr
        simp [List.filter_cons, hr2, ih]
    · have h2 : (k == k1) = false := by simpa using hk
      by_cases hr : r k1 = true
      · simp [List.filter_cons, hr, List.lookup, h2, ih]
      · have hr2 : r k1 = false := by simpa using hr
        simp [List.filter_cons, hr2, List.lookup, h2, ih]

theorem lookup_eq_none_iff_keys {α : Type} (k : String) (l : List (String × α)) :
    l.lookup k = none ↔ (l.map Prod.fst).contains k = false := by
  induction l with
  | nil => simp [List.lookup]
  | cons p rest ih =>
    obtain ⟨k1, v1⟩ := p
    by_cases hk : k = k1
    · subst hk
      simp [List.lookup]
    · have h2 : (k == k1) = false := by simpa using hk
      simp only [List.lookup, h2, ih]
      simp [hk]

/-- Reading a property of `{ ...a, ...b }`: the value `b` has, else the value `a` has. -/
theorem get_spread (a b : Record) (k : String) :
    get (spread a b) k = match b.lookup k with
                         | some v => v
                         | none => get a k := by
  unfold spread get
  rw [lookup_append_eq]
  have hmap := lookup_map_val k (fun key v => match b.lookup key with
                                              | some w => w
                                              | none => v) a
  simp only [] at hmap
  rw [hmap]
  have hfil := lookup_filter_key k (fun key => !(a.map Prod.fst).contains key) b
  simp only [] at hfil
  rw [hfil]
  cases ha : a.lookup k with
  | some v => cases hb : b.lookup k <;> simp
  | none =>
    have := (lookup_eq_none_iff_keys k a).1 ha
    simp only [this]
    cases hb : b.lookup k <;> simp

theorem findIndex_none_iff {α : Type} (p : α → Bool) (l : List α) :
    findIndex p l = none ↔ ∀ x ∈ l, p x = false := by
  induction l with
  | nil => simp [findIndex]
  | cons x xs ih =>
    by_cases hx : p x = true
    · simp [findIndex, hx]
    · have hx2 : p x = false := by simpa using hx
      simp [findIndex, hx2, ih]

theorem findIndex_some {α : Type} (p : α → Bool) (l : List α) (i : Nat)
    (h : findIndex p l = some i) :
    ∃ x, l[i]? = some x ∧ p x = true ∧
      ∀ j y, j < i → l[j]? = some y → p y = false := by
  induction l generalizing i with
  | nil => simp [findIndex] at h
  | cons x xs ih =>
    by_cases hx : p x = true
    · simp only [findIndex, hx, if_true, Option.some.injEq] at h
      subst h
      exact ⟨x, by simp, hx, fun j y hj => absurd hj (Nat.not_lt_zero j)⟩
    · have hx2 : p x = false := by simpa using hx
      simp only [findIndex, hx2, Bool.false_eq_true, if_false, Option.map_eq_some'] at h
      obtain ⟨i0, hi0, rfl⟩ := h
      obtain ⟨y, hy, hpy, hbefore⟩ := ih i0 hi0
      refine ⟨y, by simpa using hy, hpy, ?_⟩
      intro j z hj hz
      cases j with
      | zero =>
        simp at hz
        subst hz
        exact hx2
      | succ j0 =>
        simp at hz
        exact hbefore j0 z (by omega) hz


/-- C5. When some record of the collection has the id, `updateItem` succeeds: the
first such record is replaced by the shallow merge, which has the value of the patch
for every field of the patch and the previous value for every other field; the
record returned is the record stored; every other position of the collection and
every other collection is unchanged.  When no record has the id, `updateItem`
throws `Item not found` (and so writes nothing). -/
theorem updateItem_shallow_merge (db : Document) (collectionName : String) (id : Val)
    (updates : Record) :
    ((∃ r ∈ getCollection db collectionName, strictEq (get r "id") id = true) →
      ∃ index old db1 merged,
        findIndex (fun item => strictEq (get item "id") id)
            (getCollection db collectionName) = some index
        ∧ (getCollection db collectionName)[index]? = some old
        ∧ strictEq (get old "id") id = true
        ∧ updateItem db collectionName id updates = .ok (db1, merged)
        ∧ (getCollection db1 collectionName)[index]? = some merged
        ∧ (∀ k v, updates.lookup k = some v → get merged k = v)
        ∧ (∀ k, updates.lookup k = none → get merged k = get old k)
        ∧ (getCollection db1 collectionName).length
            = (getCollection db collectionName).length
        ∧ (∀ j, j ≠ index →
            (getCollection db1 collectionName)[j]? = (getCollection db collectionName)[j]?)
        ∧ (∀ c2, c2 ≠ collectionName → getCollection db1 c2 = getCollection db c2))
    ∧ ((∀ r ∈ getCollection db collectionName, strictEq (get r "id") id = false) →
        updateItem db collectionName id updates = .error "Item not found") := by
  constructor
  · rintro ⟨r, hr, hid⟩
    cases hfi : findIndex (fun item => strictEq (get item "id") id)
        (getCollection db collectionName) with
    | none =>
      have := (findIndex_none_iff _ _).1 hfi r hr
      simp [hid] at this
    | some index =>
      obtain ⟨old, hold, hpold, -⟩ := findIndex_some _ _ _ hfi
      have hlt : index < (getCollection db collectionName).length := by
        rcases List.getElem?_eq_some.1 hold with ⟨h, -⟩
        exact h
      refine ⟨index, old, updateCollection db collectionName
        ((getCollection db collectionName).set index (spread old updates)),
        spread old updates, rfl, hold, hpold, ?_, ?_, ?_, ?_, ?_, ?_, ?_⟩
      · simp [updateItem, hfi, hold]
      · rw [getCollection_updateCollection_self]
        simp [hlt]
      · intro k v hk
        rw [get_spread, hk]
      · intro k hk
        rw [get_spread, hk]
      · rw [getCollection_updateCollection_self]
        simp
      · intro j hj
        rw [getCollection_updateCollection_self]
        exact List.getElem?_set_ne (Ne.symm hj)
      · intro c2 hne
        exact getCollection_updateCollection_ne _ _ _ _ hne
  · intro hall
    have := (findIndex_none_iff (fun item => strictEq (get item "id") id)
      (getCollection db collectionName)).2 hall
    simp [updateItem, this]

/-- Witness for C5: patching the age of the only animal. -/
theorem updateItem_shallow_merge_witness :
    (∃ r ∈ getCollection [("animals", [[("id", .str "a1"), ("age", .num 2)]])] "animals",
        strictEq (get r "id") (.str "a1") = true)
    ∧ updateItem [("animals", [[("id", .str "a1"), ("age", .num 2)]])] "animals"
        (.str "a1") [("age", .num 3)]
      = .ok ([("animals", [[("id", .str "a1"), ("age", .num 3)]])],
             [("id", .str "a1"), ("age", .num 3)])
    ∧ ∃ index old db1 merged,
        findIndex (fun item => strictEq (get item "id") (.str "a1"))
            (getCollection [("animals", [[("id", .str "a1"), ("age", .num 2)]])] "animals")
          = some index
        ∧ (getCollection [("animals", [[("id", .str "a1"), ("age", .num 2)]])]
            "animals")[index]? = some old
        ∧ strictEq (get old "id") (.str "a1") = true
        ∧ updateItem [("animals", [[("id", .str "a1"), ("age", .num 2)]])] "animals"
            (.str "a1") [("age", .num 3)] = .ok (db1, merged)
        ∧ (getCollection db1 "animals")[index]? = some merged
        ∧ (∀ k v, List.lookup k [("age", Val.num 3)] = some v → get merged k = v)
        ∧ (∀ k, List.lookup k [("age", Val.num 3)] = none → get merged k = get old k)
        ∧ (getCollection db1 "animals").length
            = (getCollection [("animals", [[("id", .str "a1"), ("age", .num 2)]])]
                "animals").length
        ∧ (∀ j, j ≠ index →
            (getCollection db1 "animals")[j]?
              = (getCollection [("animals", [[("id", .str "a1"), ("age", .num 2)]])]
                  "animals")[j]?)
        ∧ (∀ c2, c2 ≠ "animals" → getCollection db1 c2
            = getCollection [("animals", [[("id", .str "a1"), ("age", .num 2)]])] c2) :=
  ⟨⟨[("id", .str "a1"), ("age", .num 2)], by decide, by decide⟩, by decide,
   (updateItem_shallow_merge [("animals", [[("id", .str "a1"), ("age", .num 2)]])]
      "animals" (.str "a1") [("age", .num 3)]).1
     ⟨[("id", .str "a1"), ("age", .num 2)], by decide, by decide⟩⟩


theorem strictEq_str_iff (v : Val) (s : String) : strictEq v (.str s) = true ↔ v = .str s := by
  cases v <;> simp [strictEq]

theorem strictEq_undefined_iff (v : Val) : strictEq v .undefined = true ↔ v = .undefined := by
  cases v <;> simp [strictEq]

theorem strictEq_param_iff (v : Val) (req : Request) (name : String) :
    strictEq v (req.param name) = true ↔ v = req.param name := by
  unfold Request.param
  cases req.params.lookup name with
  | none => exact strictEq_undefined_iff v
  | some s => exact strictEq_str_iff v s

/-- C2. The middleware returned by `requireOwnerOrAdmin(paramName)` calls `next`
exactly when the role of the attached user is `admin` or the username of the
attached user equals the path parameter `paramName`; in every other case it answers
403 `Access denied` (and `next` is not called). -/
theorem requireOwnerOrAdmin_next_iff (usernameParam : String) (user : Record)
    (req : Request) :
    (requireOwnerOrAdmin usernameParam user req = .next ()
        ↔ (get user "role" = .str "admin"
            ∨ get user "username" = req.param usernameParam))
    ∧ (requireOwnerOrAdmin usernameParam user req = .respond (fail 403 "Access denied")
        ↔ ¬ (get user "role" = .str "admin"
            ∨ get user "username" = req.param usernameParam)) := by
  have hr := strictEq_str_iff (get user "role") "admin"
  have hu := strictEq_param_iff (get user "username") req usernameParam
  unfold requireOwnerOrAdmin
  simp only []
  by_cases h : (strictEq (get user "role") (.str "admin")
      || strictEq (get user "username") (req.param usernameParam)) = true
  · have h2 : get user "role" = .str "admin"
        ∨ get user "username" = req.param usernameParam := by
      rcases Bool.or_eq_true _ _ ▸ h with h1 | h1
      · exact Or.inl (hr.1 h1)
      · exact Or.inr (hu.1 h1)
    simp only [h, if_true, true_iff, reduceCtorEq, false_iff, not_not]
    exact ⟨h2, h2⟩
  · have h2 : ¬ (get user "role" = .str "admin"
        ∨ get user "username" = req.param usernameParam) := by
      rintro (h1 | h1)
      · exact h (by simp [hr.2 h1])
      · exact h (by simp [hu.2 h1])
    simp only [h, if_false, reduceCtorEq, false_iff, true_iff]
    exact ⟨h2, h2⟩

/-- C3. `authenticateToken`, with `jwt.verify` as the oracle `env.verify`: 401 when
the header carries no token; 403 when verification fails; 401 when the token
verifies but no user has the username of the payload; otherwise `next` with the
first user record whose username equals the claim attached.  `next` happens only in
that last case.  The header carries no token when it is absent or empty, or when
its second space-separated part is missing or empty. -/
theorem authenticateToken_outcomes (env : Env) (db : Document) (authHeader : Option String) :
    (bearerToken authHeader = none →
        authenticateToken env db authHeader = .respond (fail 401 "Access token required"))
    ∧ (∀ token, bearerToken authHeader = some token → env.verify token = none →
        authenticateToken env db authHeader
          = .respond (fail 403 "Invalid or expired token"))
    ∧ (∀ token decoded, bearerToken authHeader = some token →
        env.verify token = some decoded →
        (∀ u ∈ getCollection db "users",
            strictEq (get u "username") (get decoded "username") = false) →
        authenticateToken env db authHeader = .respond (fail 401 "Invalid token"))
    ∧ (∀ token decoded, bearerToken authHeader = some token →
        env.verify token = some decoded →
        (∃ u ∈ getCollection db "users",
            strictEq (get u "username") (get decoded "username") = true) →
        ∃ user, authenticateToken env db authHeader = .next user
          ∧ user ∈ getCollection db "users"
          ∧ strictEq (get user "username") (get decoded "username") = true
          ∧ (getCollection db "users").find?
              (fun u => strictEq (get u "username") (get decoded "username")) = some user)
    ∧ (∀ user, authenticateToken env db authHeader = .next user →
        ∃ token decoded, bearerToken authHeader = some token
          ∧ env.verify token = some decoded
          ∧ findByField db "users" "username" (get decoded "username") = some user)
    ∧ (bearerToken none = none ∧ bearerToken (some "") = none
        ∧ ∀ h, bearerToken (some h) = none
            ↔ (h = "" ∨ (splitSpace h.data)[1]? = none ∨ (splitSpace h.data)[1]? = some [])) := by
  refine ⟨?_, ?_, ?_, ?_, ?_, rfl, rfl, ?_⟩
  · intro h
    simp [authenticateToken, h]
  · intro token h hv
    simp [authenticateToken, h, hv]
  · intro token decoded h hv hall
    have : findByField db "users" "username" (get decoded "username") = none := by
      unfold findByField
      exact List.find?_eq_none.2 (fun u hu => by simp [hall u hu])
    simp [authenticateToken, h, hv, this]
  · intro token decoded h hv hex
    cases hf : (getCollection db "users").find?
        (fun u => strictEq (get u "username") (get decoded "username")) with
    | none =>
      obtain ⟨u, hu, hpu⟩ := hex
      have := List.find?_eq_none.1 hf u hu
      simp [hpu] at this
    | some user =>
      refine ⟨user, ?_, List.mem_of_find?_eq_some hf, ?_, rfl⟩
      · simp [authenticateToken, h, hv, findByField, hf]
      · simpa using List.find?_some hf
  · intro user h
    unfold authenticateToken at h
    cases hb : bearerToken authHeader with
    | none => simp [hb] at h
    | some token =>
      cases hv : env.verify token with
      | none => simp [hb, hv] at h
      | some decoded =>
        cases hf : findByField db "users" "username" (get decoded "username") with
        | none => simp [hb, hv, hf] at h
        | some u =>
          simp only [hb, hv, hf, Gate.next.injEq] at h
          exact ⟨token, decoded, rfl, hv, by rw [hf, h]⟩
  · intro h
    unfold bearerToken
    by_cases h0 : h = ""
    · simp [h0]
    · simp only [h0, if_false, false_or]
      cases hs : (splitSpace h.data)[1]? with
      | none => simp
      | some t =>
        by_cases ht : t = []
        · simp [ht]
        · simp [ht]

/-- Witness for C3: a header without a second part is answered 401. -/
theorem authenticateToken_outcomes_witness :
    bearerToken (some "Bearer") = none
    ∧ authenticateToken sampleEnv
        [("users", [[("username", .str "ann")]])] (some "Bearer")
      = .respond (fail 401 "Access token required") :=
  ⟨by decide,
   (authenticateToken_outcomes sampleEnv
        [("users", [[("username", .str "ann")]])] (some "Bearer")).1 (by decide)⟩

theorem jsonObject_cons_undefined (k : String) (rest : Record) :
    jsonObject ((k, .undefined) :: rest) = jsonObject rest := by
  simp [jsonObject, List.filter_cons]

theorem jsonObject_cons_defined (k : String) (v : Val) (rest : Record)
    (hv : v ≠ .undefined) :
    jsonObject ((k, v) :: rest) = (k, v) :: jsonObject rest := by
  cases v <;> simp_all [jsonObject, List.filter_cons]

theorem lookup_jsonObject (k : String) :
    ∀ (r : Record), (r.map Prod.fst).Nodup →
      (jsonObject r).lookup k
        = match r.lookup k with
          | some v => if v = .undefined then none else some v
          | none => none := by
  intro r
  induction r with
  | nil => intro _; rfl
  | cons p rest ih =>
    intro h
    obtain ⟨k1, v1⟩ := p
    simp only [List.map_cons, List.nodup_cons] at h
    obtain ⟨hnot, hnd⟩ := h
    have ih2 := ih hnd
    by_cases hk : k = k1
    · subst hk
      have hrest : rest.lookup k = none :=
        (lookup_eq_none_iff_keys k rest).2 (by simpa using hnot)
      rw [hrest] at ih2
      by_cases hv : v1 = .undefined
      · subst hv
        rw [jsonObject_cons_undefined, ih2]
        simp [List.lookup]
      · rw [jsonObject_cons_defined k v1 rest hv]
        simp [List.lookup, hv]
    · have hb : (k == k1) = false := by simpa using hk
      by_cases hv : v1 = .undefined
      · subst hv
        rw [jsonObject_cons_undefined, ih2]
        simp [List.lookup, hb]
      · rw [jsonObject_cons_defined k1 v1 rest hv]
        simp only [List.lookup, hb, ih2]

/-- Leaving out the `undefined` properties does not change what a property read
gives, for an object without repeated keys. -/
theorem get_jsonObject (r : Record) (k : String) (h : (r.map Prod.fst).Nodup) :
    get (jsonObject r) k = get r k := by
  unfold get
  rw [lookup_jsonObject k r h]
  cases r.lookup k with
  | none => rfl
  | some v =>
    by_cases hv : v = .undefined
    · simp [hv]
    · simp [hv]

/-- Property reads of a line item. -/
theorem get_lineItem (a q p : Val) (k : String) :
    get (jsonObject [("animal_id", a), ("quantity", q), ("price", p)]) k
      = get [("animal_id", a), ("quantity", q), ("price", p)] k :=
  get_jsonObject _ _ (by simp)

theorem prop_truthy_ne (item : Val) (k : String) (h : truthy (prop item k) = true) :
    isNullish item = false := by
  cases item <;> first | rfl | simp [prop, truthy] at h

/-- The validation loop on items that each name a stored animal with quantity 1:
it ends normally, having pushed one line item per request item, at the price of the
first animal with that id, and having added `price * 1` to the total each time. -/
theorem checkoutLoop_valid (env : Env) (animals : List Record) :
    ∀ (items : List Val) (orderItems : List Record) (totalAmount : Option Dyadic),
      (∀ item ∈ items, truthy (prop item "animal_id") = true
          ∧ prop item "quantity" = .num 1
          ∧ ∃ a ∈ animals, strictEq (get a "id") (prop item "animal_id") = true) →
      ∃ lineItems,
        checkoutLoop env animals items orderItems totalAmount
          = .ok (orderItems ++ lineItems,
                 lineItems.foldl
                   (fun t li => jsAdd t (jsMul env (get li "price") (.num 1))) totalAmount)
        ∧ List.Forall₂
            (fun item li => ∃ a,
              animals.find? (fun a => strictEq (get a "id") (prop item "animal_id")) = some a
              ∧ li = jsonObject [("animal_id", prop item "animal_id"),
                                 ("quantity", .num 1), ("price", get a "price")])
            items lineItems := by
  intro items
  induction items with
  | nil =>
    intro orderItems totalAmount _
    exact ⟨[], by simp [checkoutLoop], List.Forall₂.nil⟩
  | cons item rest ih =>
    intro orderItems totalAmount hvalid
    obtain ⟨hid, hq, a0, ha0, hmatch⟩ := hvalid item (List.mem_cons_self _ _)
    have hrest := fun it hit => hvalid it (List.mem_cons_of_mem _ hit)
    have hnn := prop_truthy_ne item "animal_id" hid
    cases hfind : animals.find? (fun a => strictEq (get a "id") (prop item "animal_id")) with
    | none =>
      have := List.find?_eq_none.1 hfind a0 ha0
      simp [hmatch] at this
    | some a =>
      obtain ⟨lis, hrun, hrel⟩ := ih
        (orderItems ++ [jsonObject [("animal_id", prop item "animal_id"),
                                    ("quantity", .num 1), ("price", get a "price")]])
        (jsAdd totalAmount (jsMul env (get a "price") (.num 1))) hrest
      refine ⟨jsonObject [("animal_id", prop item "animal_id"), ("quantity", .num 1),
               ("price", get a "price")] :: lis, ?_, List.Forall₂.cons ⟨a, hfind, rfl⟩ hrel⟩
      have hle : leZero env (.num 1) = false := rfl
      have hq1 : truthy (.num 1) = true := by decide
      have hs1 : strictEq (.num 1) (.num 1) = true := by decide
      rw [checkoutLoop]
      simp only [hnn, if_false, hid, hq, hq1, hle, hfind, hs1, Bool.not_true, Bool.or_self,
        Bool.false_eq_true]
      rw [hrun]
      have hprice : get (jsonObject [("animal_id", prop item "animal_id"),
          ("quantity", .num 1), ("price", get a "price")]) "price" = get a "price" := by
        rw [get_lineItem]
        simp [get, List.lookup]
      simp only [List.foldl_cons, hprice, List.append_assoc, List.singleton_append]

/-- An integer of magnitude below `2 ^ 53` is a double. -/
theorem roundDouble_ofInt (n : Int) (h : n.natAbs < 9007199254740992) :
    roundDouble (Dyadic.ofInt n) = some (Dyadic.ofInt n) := by
  simp [roundDouble, Dyadic.ofInt, Dyadic.norm, h]

theorem Dyadic.mul_one_eq (x : Dyadic) : Dyadic.mul x 1 = x := by
  cases x with
  | mk m e =>
    show (⟨m * 1, e + 0⟩ : Dyadic) = ⟨m, e⟩
    simp

theorem Dyadic.add_ofInt (a b : Int) :
    Dyadic.add (Dyadic.ofInt a) (Dyadic.ofInt b) = Dyadic.ofInt (a + b) := by
  simp [Dyadic.add, Dyadic.ofInt]

/-- The product `price * 1` of a number is the number, rounded to a double. -/
theorem jsMul_one (env : Env) (x : Dyadic) :
    jsMul env (.num x) (.num 1) = roundDouble x := by
  simp [jsMul, jsToNumber, Dyadic.mul_one_eq]

/-- With line-item prices that are doubles, the total accumulated by the loop is
their sum under double addition, taken from left to right. -/
theorem total_of_double_prices (env : Env) :
    ∀ (lineItems : List Record) (xs : List Dyadic) (t : Option Dyadic),
      lineItems.map (fun li => get li "price") = xs.map Val.num →
      (∀ x ∈ xs, roundDouble x = some x) →
      lineItems.foldl (fun t li => jsAdd t (jsMul env (get li "price") (.num 1))) t
        = xs.foldl (fun t x => jsAdd t (some x)) t := by
  intro lineItems
  induction lineItems with
  | nil =>
    intro xs t h _
    cases xs with
    | nil => rfl
    | cons x xs => simp at h
  | cons li rest ih =>
    intro xs t h hd
    cases xs with
    | nil => simp at h
    | cons x xs =>
      simp only [List.map_cons, List.cons.injEq] at h
      obtain ⟨hp, hps⟩ := h
      rw [List.foldl_cons, List.foldl_cons, hp, jsMul_one, hd x (List.mem_cons_self _ _)]
      exact ih xs _ hps (fun y hy => hd y (List.mem_cons_of_mem _ hy))

/-- With integer line-item prices whose magnitudes add up to less than `2 ^ 53`, no
addition rounds and the total is the exact sum. -/
theorem total_of_safe_prices (env : Env) :
    ∀ (lineItems : List Record) (prices : List Int) (t0 : Int),
      lineItems.map (fun li => get li "price")
        = prices.map (fun p => Val.num (Dyadic.ofInt p)) →
      t0.natAbs + (prices.map Int.natAbs).sum < 9007199254740992 →
      lineItems.foldl (fun t li => jsAdd t (jsMul env (get li "price") (.num 1)))
          (some (Dyadic.ofInt t0))
        = some (Dyadic.ofInt (t0 + prices.sum)) := by
  intro lineItems
  induction lineItems with
  | nil =>
    intro prices t0 h _
    cases prices with
    | nil => simp
    | cons p ps => simp at h
  | cons li rest ih =>
    intro prices t0 h hb
    cases prices with
    | nil => simp at h
    | cons p ps =>
      simp only [List.map_cons, List.cons.injEq] at h
      obtain ⟨hp, hps⟩ := h
      simp only [List.map_cons, List.sum_cons] at hb
      have hle := Int.natAbs_add_le t0 p
      have hstep : jsAdd (some (Dyadic.ofInt t0)) (jsMul env (.num (Dyadic.ofInt p)) (.num 1))
          = some (Dyadic.ofInt (t0 + p)) := by
        rw [jsMul_one, roundDouble_ofInt p (by omega)]
        show roundDouble (Dyadic.add (Dyadic.ofInt t0) (Dyadic.ofInt p)) = _
        rw [Dyadic.add_ofInt, roundDouble_ofInt _ (by omega)]
      rw [List.foldl_cons, hp, hstep, ih ps (t0 + p) hps (by omega), List.sum_cons, add_assoc]

theorem any_lineItems_eq (animals : List Record) (v : Val) :
    ∀ (items : List Val) (lineItems : List Record),
      List.Forall₂
        (fun item li => ∃ a,
          animals.find? (fun a => strictEq (get a "id") (prop item "animal_id")) = some a
          ∧ li = jsonObject [("animal_id", prop item "animal_id"), ("quantity", .num 1),
                             ("price", get a "price")])
        items lineItems →
      lineItems.any (fun item => strictEq (get item "animal_id") v)
        = items.any (fun item => strictEq (prop item "animal_id") v) := by
  intro items lineItems h
  induction h with
  | nil => rfl
  | cons hhead _ ih =>
    obtain ⟨a, -, rfl⟩ := hhead
    simp only [List.any_cons, ih, get_lineItem]
    simp [get, List.lookup]


/-- C1 (counterexample).  Two ways in which the claim fails on a request that meets
its conditions, with the payment going through.  With stored prices `2 ^ 53` and
`1`, both animals are sold at these prices and `total_amount` is `2 ^ 53`: the
second addition rounds, and the sum of the two line-item prices is `2 ^ 53 + 1`.
With a stored animal whose id is the empty string, the item that names it with
quantity 1 is answered 400 `Invalid item data` and nothing is written, because the
handler tests `!animal_id`. -/
theorem checkout_total_rounded_or_rejected :
    sampleEnv.paymentSuccess = true
    ∧ (checkout sampleEnv dearFarmDb annUser buyBoth).2.status = 201
    ∧ prop (prop (checkout sampleEnv dearFarmDb annUser buyBoth).2.body "order") "items"
        = .arr [.obj [("animal_id", .str "animal_1"), ("quantity", .num 1),
                      ("price", .num 9007199254740992)],
                .obj [("animal_id", .str "animal_2"), ("quantity", .num 1),
                      ("price", .num 1)]]
    ∧ prop (checkout sampleEnv dearFarmDb annUser buyBoth).2.body "total_amount"
        = .num 9007199254740992
    ∧ Dyadic.add 9007199254740992 1 = 9007199254740993
    ∧ get buyBlank "items" = .arr [.obj [("animal_id", .str ""), ("quantity", .num 1)]]
    ∧ getCollection blankIdDb "animals"
        = [[("id", .str ""), ("animal_type", .str "Cow"), ("price", .num 500)]]
    ∧ checkout sampleEnv blankIdDb annUser buyBlank
        = (blankIdDb, fail 400 "Invalid item data") := by
  decide

/-- C1 (amended).  Checkout with a non-empty `ship_address` and a non-empty `items`
list in which every item has a truthy `animal_id` that some stored animal has and
`quantity` exactly 1.  If the simulated payment succeeds the answer is 201, the
animals collection written is the old one without every animal an item refers to,
exactly one order is appended, owned by the caller, whose line items are the
requested animal ids in request order, each at the stored price of the first animal
with that id, and `total_amount` is the sum of `price * 1` over the line items in
double arithmetic: for prices that are doubles it is their sum under double
addition from left to right, and for integer prices whose magnitudes add up to
less than `2 ^ 53` it is their exact sum; no other collection changes.  If the
payment fails the answer is 400 `Payment processing failed` and the document is
returned as it was.  The route runs this handler for the user that
`authenticateToken` attached. -/
theorem checkout_valid_items (env : Env) (db : Document) (user body : Record)
    (items : List Val)
    (hitems : get body "items" = .arr items) (hne : items ≠ [])
    (hship : truthy (get body "ship_address") = true)
    (hvalid : ∀ item ∈ items, truthy (prop item "animal_id") = true
        ∧ prop item "quantity" = .num 1
        ∧ ∃ a ∈ getCollection db "animals",
            strictEq (get a "id") (prop item "animal_id") = true) :
    (env.paymentSuccess = true →
      ∃ order lineItems,
        (checkout env db user body).2.status = 201
        ∧ getCollection (checkout env db user body).1 "animals"
            = (getCollection db "animals").filter (fun animal =>
                !items.any (fun item => strictEq (prop item "animal_id") (get animal "id")))
        ∧ (∀ item ∈ items, ∀ animal ∈ getCollection (checkout env db user body).1 "animals",
            strictEq (prop item "animal_id") (get animal "id") = false)
        ∧ getCollection (checkout env db user body).1 "orders"
            = getCollection db "orders" ++ [order]
        ∧ (∀ c, c ≠ "animals" → c ≠ "orders" →
            getCollection (checkout env db user body).1 c = getCollection db c)
        ∧ get order "username" = get user "username"
        ∧ get order "ship_address" = get body "ship_address"
        ∧ get order "items" = .arr (lineItems.map Val.obj)
        ∧ List.Forall₂
            (fun item li => ∃ a,
              (getCollection db "animals").find?
                  (fun a => strictEq (get a "id") (prop item "animal_id")) = some a
              ∧ li = jsonObject [("animal_id", prop item "animal_id"),
                                 ("quantity", .num 1), ("price", get a "price")])
            items lineItems
        ∧ prop (checkout env db user body).2.body "order" = .obj order
        ∧ prop (checkout env db user body).2.body "total_amount"
            = ofNum (lineItems.foldl
                (fun t li => jsAdd t (jsMul env (get li "price") (.num 1))) (some 0))
        ∧ (∀ xs : List Dyadic,
            lineItems.map (fun li => get li "price") = xs.map Val.num →
            (∀ x ∈ xs, roundDouble x = some x) →
            prop (checkout env db user body).2.body "total_amount"
              = ofNum (xs.foldl (fun t x => jsAdd t (some x)) (some 0)))
        ∧ (∀ prices : List Int,
            lineItems.map (fun li => get li "price")
              = prices.map (fun p => Val.num (Dyadic.ofInt p)) →
            (prices.map Int.natAbs).sum < 9007199254740992 →
            prop (checkout env db user body).2.body "total_amount"
              = .num (Dyadic.ofInt prices.sum)))
    ∧ (env.paymentSuccess = false →
        checkout env db user body = (db, fail 400 "Payment processing failed"))
    ∧ (∀ req : Request, authenticateToken env db req.authorization = .next user →
        req.body = body → checkoutRoute env db req = checkout env db user body) := by
  obtain ⟨lineItems, hrun, hrel⟩ :=
    checkoutLoop_valid env (getCollection db "animals") items [] (some 0) hvalid
  obtain ⟨i, is, rfl⟩ : ∃ i is, items = i :: is := by
    cases items with
    | nil => exact absurd rfl hne
    | cons i is => exact ⟨i, is, rfl⟩
  have hao : ("animals" : String) ≠ "orders" := by decide
  refine ⟨?_, ?_, ?_⟩
  · intro hpay
    have hchk : checkout env db user body
        = (addItem (updateCollection db "animals"
              ((getCollection db "animals").filter (fun animal =>
                !lineItems.any
                  (fun item => strictEq (get item "animal_id") (get animal "id")))))
            "orders" (newOrder env user (get body "ship_address") lineItems),
           ⟨201, .obj [("message", .str "Order placed successfully"),
                       ("order", .obj (newOrder env user (get body "ship_address") lineItems)),
                       ("total_amount", ofNum (lineItems.foldl
                          (fun t li => jsAdd t (jsMul env (get li "price") (.num 1)))
                          (some 0))),
                       ("payment_status", .str "completed")]⟩) := by
      unfold checkout
      simp only [hitems, hship, hrun, hpay, List.nil_append, Bool.not_true,
        Bool.false_eq_true, if_false]
    have hfilter : (getCollection db "animals").filter (fun animal =>
          !lineItems.any (fun item => strictEq (get item "animal_id") (get animal "id")))
        = (getCollection db "animals").filter (fun animal =>
          !(i :: is).any (fun item => strictEq (prop item "animal_id") (get animal "id"))) := by
      congr 1
      funext animal
      rw [any_lineItems_eq (getCollection db "animals") (get animal "id") (i :: is)
        lineItems hrel]
    have hanimals : getCollection (checkout env db user body).1 "animals"
        = (getCollection db "animals").filter (fun animal =>
          !(i :: is).any (fun item => strictEq (prop item "animal_id") (get animal "id"))) := by
      rw [hchk]
      simp only [addItem]
      rw [getCollection_updateCollection_ne _ _ _ _ hao,
        getCollection_updateCollection_self, hfilter]
    have htotal : prop (checkout env db user body).2.body "total_amount"
        = ofNum (lineItems.foldl
            (fun t li => jsAdd t (jsMul env (get li "price") (.num 1))) (some 0)) := by
      rw [hchk]
      simp [prop, get, List.lookup]
    refine ⟨newOrder env user (get body "ship_address") lineItems, lineItems, ?_, hanimals,
      ?_, ?_, ?_, ?_, ?_, ?_, hrel, ?_, htotal, ?_, ?_⟩
    · rw [hchk]
    · intro item hitem animal hanimal
      rw [hanimals] at hanimal
      have := (List.mem_filter.1 hanimal).2
      simp only [Bool.not_eq_true', List.any_eq_false] at this
      simpa using this item hitem
    · rw [hchk]
      simp only [addItem]
      rw [getCollection_updateCollection_self,
        getCollection_updateCollection_ne _ _ _ _ hao.symm]
    · intro c hc1 hc2
      rw [hchk]
      simp only [addItem]
      rw [getCollection_updateCollection_ne _ _ _ _ hc2,
        getCollection_updateCollection_ne _ _ _ _ hc1]
    · rw [newOrder, get_jsonObject _ _ (by simp)]
      simp [get, List.lookup]
    · rw [newOrder, get_jsonObject _ _ (by simp)]
      simp [get, List.lookup]
    · rw [newOrder, get_jsonObject _ _ (by simp)]
      simp [get, List.lookup]
    · rw [hchk]
      simp [prop, get, List.lookup]
    · intro xs hxs hd
      rw [htotal, total_of_double_prices env lineItems xs (some 0) hxs hd]
    · intro prices hprices hb
      have htot := total_of_safe_prices env lineItems prices 0 hprices
        (by simpa using hb)
      rw [zero_add] at htot
      rw [htotal]
      show ofNum (lineItems.foldl
        (fun t li => jsAdd t (jsMul env (get li "price") (.num 1)))
        (some (Dyadic.ofInt 0))) = _
      rw [htot]
      rfl
  · intro hpay
    unfold checkout
    simp only [hitems, hship, hrun, hpay, Bool.not_true, Bool.not_false,
      Bool.false_eq_true, if_false, if_true]
  · intro req hauth hbody
    simp only [checkoutRoute, hauth, hbody]

/-- Witness for C1: `ann` buys `animal_1` from `farmDb`. -/
theorem checkout_valid_items_witness :
    get buyOne "items" = .arr [.obj [("animal_id", .str "animal_1"), ("quantity", .num 1)]]
    ∧ truthy (get buyOne "ship_address") = true
    ∧ (checkout sampleEnv farmDb annUser buyOne).2.status = 201
    ∧ getCollection (checkout sampleEnv farmDb annUser buyOne).1 "animals"
        = [[("id", .str "animal_2"), ("animal_type", .str "Goat"), ("price", .num 120)]] := by
  obtain ⟨_, _, hstatus, hanimals, -⟩ :=
    (checkout_valid_items sampleEnv farmDb annUser buyOne
      [.obj [("animal_id", .str "animal_1"), ("quantity", .num 1)]]
      (by decide) (by decide) (by decide) (by decide)).1 rfl
  refine ⟨by decide, by decide, hstatus, ?_⟩
  rw [hanimals]
  decide

/-- C7 (failing input).  A checkout whose items list names `animal_1` twice is
accepted: the order created has two line items for `animal_1` and the total is twice
its price. -/
theorem checkout_same_animal_twice :
    (checkout sampleEnv farmDb annUser buyTwice).2.status = 201
    ∧ getCollection (checkout sampleEnv farmDb annUser buyTwice).1 "orders"
        = [[("id", .str "order_5"), ("username", .str "ann"),
            ("order_date", .str "2024-01-01T00:00:00.000Z"),
            ("ship_address", .str "1 Farm Road"),
            ("items", .arr [.obj [("animal_id", .str "animal_1"), ("quantity", .num 1),
                                  ("price", .num 500)],
                            .obj [("animal_id", .str "animal_1"), ("quantity", .num 1),
                                  ("price", .num 500)]])]]
    ∧ prop (checkout sampleEnv farmDb annUser buyTwice).2.body "total_amount" = .num 1000
    ∧ ((getCollection farmDb "animals").map (fun a => get a "id")).Nodup
    ∧ getCollection farmDb "orders" = [] := by
  decide


theorem char_toUpper_toLower (c : Char) : c.toLower.toUpper = c.toUpper := by
  by_cases h : 65 ≤ c.toNat ∧ c.toNat ≤ 90
  · have hc : c = Char.ofNat c.toNat := (Char.ofNat_toNat c).symm
    obtain ⟨n, hn⟩ : ∃ n, c.toNat = n := ⟨_, rfl⟩
    rw [hn] at h hc
    obtain ⟨h1, h2⟩ := h
    subst hc
    interval_cases n <;> rfl
  · have : c.toLower = c := by
      unfold Char.toLower
      simp only [ge_iff_le]
      rw [if_neg h]
    rw [this]

theorem char_toLower_toLower (c : Char) : c.toLower.toLower = c.toLower := by
  by_cases h : 65 ≤ c.toNat ∧ c.toNat ≤ 90
  · have hc : c = Char.ofNat c.toNat := (Char.ofNat_toNat c).symm
    obtain ⟨n, hn⟩ : ∃ n, c.toNat = n := ⟨_, rfl⟩
    rw [hn] at h hc
    obtain ⟨h1, h2⟩ := h
    subst hc
    interval_cases n <;> rfl
  · have : c.toLower = c := by
      unfold Char.toLower
      simp only [ge_iff_le]
      rw [if_neg h]
    rw [this, this]

theorem char_toLower_ascii (c : Char) (hc : c.toNat < 128) : c.toLower.toNat < 128 := by
  by_cases h : 65 ≤ c.toNat ∧ c.toNat ≤ 90
  · have hc : c = Char.ofNat c.toNat := (Char.ofNat_toNat c).symm
    obtain ⟨n, hn⟩ : ∃ n, c.toNat = n := ⟨_, rfl⟩
    rw [hn] at h hc
    obtain ⟨h1, h2⟩ := h
    subst hc
    interval_cases n <;> decide
  · have : c.toLower = c := by
      unfold Char.toLower
      simp only [ge_iff_le]
      rw [if_neg h]
    rw [this]
    exact hc

theorem isAscii_toLower (s : String) (h : isAscii s = true) :
    isAscii (String.mk (s.data.map Char.toLower)) = true := by
  unfold isAscii at *
  simp only [List.all_eq_true, decide_eq_true_eq, List.mem_map, forall_exists_index,
    and_imp, forall_apply_eq_imp_iff₂] at *
  intro c hc
  exact char_toLower_ascii c (h c hc)

/-- On ASCII strings, capitalising a string and capitalising its lower-cased form
give the same result. -/
theorem capitalize_toLowerCase (env : Env) (s : String) (h : isAscii s = true) :
    capitalize env (toLowerCase env s) = capitalize env s := by
  have h2 := isAscii_toLower s h
  unfold toLowerCase
  rw [if_pos h]
  unfold capitalize
  rw [if_pos h2, if_pos h]
  cases hd : s.data with
  | nil => simp
  | cons c cs =>
    have hlist : (c :: cs).map Char.toLower = c.toLower :: cs.map Char.toLower := rfl
    have htail : (cs.map Char.toLower).map Char.toLower = cs.map Char.toLower := by
      rw [List.map_map]
      apply List.map_congr_left
      intro x _
      exact char_toLower_toLower x
    simp only [hlist, char_toUpper_toLower, htail]

theorem capitalize_validFarmAnimals (env : Env) :
    validFarmAnimals.map (capitalize env)
      = ["Cow", "Chicken", "Sheep", "Goat", "Horse", "Duck", "Turkey", "Goose", "Llama",
         "Alpaca", "Donkey", "Mule"] := rfl

/-- A body that passes every validation of `POST /animals` is stored as `newAnimal`
and answered 201. -/
theorem createAnimal_accepts (env : Env) (db : Document) (body : Record) (t g : String)
    (htype : get body "animal_type" = .str t) (hgender : get body "animal_gender" = .str g)
    (hpresent : truthy (get body "animal_type") = true ∧ truthy (get body "age") = true
        ∧ truthy (get body "weight") = true ∧ truthy (get body "price") = true
        ∧ truthy (get body "animal_name") = true
        ∧ truthy (get body "animal_gender") = true)
    (hvalid : validGenders.contains (toLowerCase env g) = true)
    (hw : validFarmAnimals.contains (toLowerCase env t) = true) :
    createAnimal env db body
      = (addItem db "animals" (newAnimal env body t g),
         ⟨201, .obj (newAnimal env body t g)⟩) := by
  obtain ⟨h1, h2, h3, h4, h5, h6⟩ := hpresent
  unfold createAnimal
  simp only [h2, h3, h4, h5]
  simp only [htype, hgender] at h1 h6 ⊢
  simp only [h1, h6, hw, hvalid, Bool.not_true, Bool.or_self, Bool.false_eq_true,
    if_false]

/-- C8. `POST /animals` with all required fields present, a string `animal_type`
and a valid gender.  If the lower-cased type is in the whitelist the animal is
appended and answered 201, and the stored and returned `animal_type` is the type
with its first letter upper-cased and the rest lower-cased, which for an ASCII type
is the capitalised whitelist name (`cow` and `COW` both give `Cow`).  If it is not
in the whitelist (such as `dragon`) the answer is 400 with the whitelist in
`valid_types` and the document is returned as it was.  The route runs this handler
when the authenticated user is an admin. -/
theorem createAnimal_type_whitelist (env : Env) (db : Document) (body : Record)
    (t g : String)
    (htype : get body "animal_type" = .str t) (hgender : get body "animal_gender" = .str g)
    (hpresent : truthy (get body "animal_type") = true ∧ truthy (get body "age") = true
        ∧ truthy (get body "weight") = true ∧ truthy (get body "price") = true
        ∧ truthy (get body "animal_name") = true
        ∧ truthy (get body "animal_gender") = true)
    (hvalid : validGenders.contains (toLowerCase env g) = true) :
    (validFarmAnimals.contains (toLowerCase env t) = true →
      ∃ animal,
        createAnimal env db body = (addItem db "animals" animal, ⟨201, .obj animal⟩)
        ∧ getCollection (createAnimal env db body).1 "animals"
            = getCollection db "animals" ++ [animal]
        ∧ get animal "animal_type" = .str (capitalize env t)
        ∧ prop (createAnimal env db body).2.body "animal_type" = .str (capitalize env t)
        ∧ (isAscii t = true →
            capitalize env t = capitalize env (toLowerCase env t)
            ∧ capitalize env t ∈ ["Cow", "Chicken", "Sheep", "Goat", "Horse", "Duck",
                "Turkey", "Goose", "Llama", "Alpaca", "Donkey", "Mule"]))
    ∧ (validFarmAnimals.contains (toLowerCase env t) = false →
        createAnimal env db body = (db, invalidTypeReply)
        ∧ (createAnimal env db body).2.status = 400
        ∧ prop (createAnimal env db body).2.body "valid_types"
            = .arr (validFarmAnimals.map Val.str)
        ∧ getCollection (createAnimal env db body).1 "animals" = getCollection db "animals")
    ∧ (capitalize env "cow" = "Cow" ∧ capitalize env "COW" = "Cow"
        ∧ validFarmAnimals.contains (toLowerCase env "cow") = true
        ∧ validFarmAnimals.contains (toLowerCase env "COW") = true
        ∧ validFarmAnimals.contains (toLowerCase env "dragon") = false)
    ∧ (∀ (req : Request) (user : Record),
        authenticateToken env db req.authorization = .next user →
        get user "role" = .str "admin" → req.body = body →
        createAnimalRoute env db req = createAnimal env db body) := by
  have hrun0 := createAnimal_accepts env db body t g htype hgender hpresent hvalid
  obtain ⟨h1, h2, h3, h4, h5, h6⟩ := hpresent
  refine ⟨?_, ?_, ⟨rfl, rfl, rfl, rfl, rfl⟩, ?_⟩
  · intro hw
    have hrun := hrun0 hw
    refine ⟨newAnimal env body t g, hrun, ?_, ?_, ?_, ?_⟩
    · rw [hrun]
      simp only [addItem]
      rw [getCollection_updateCollection_self]
    · simp [newAnimal, get, List.lookup]
    · rw [hrun]
      simp [newAnimal, prop, get, List.lookup]
    · intro hascii
      have hcap := capitalize_toLowerCase env t hascii
      refine ⟨hcap.symm, ?_⟩
      rw [← hcap]
      have hmem : toLowerCase env t ∈ validFarmAnimals := by
        simpa using hw
      have := List.mem_map_of_mem (capitalize env) hmem
      rwa [capitalize_validFarmAnimals] at this
  · intro hw
    have hrun : createAnimal env db body = (db, invalidTypeReply) := by
      unfold createAnimal
      simp only [h2, h3, h4, h5]
      simp only [htype, hgender] at h1 h6 ⊢
      simp only [h1, h6, hw, Bool.not_true, Bool.not_false, Bool.or_self,
        Bool.false_eq_true, if_false, if_true]
    refine ⟨hrun, ?_, ?_, ?_⟩
    · rw [hrun]
      rfl
    · rw [hrun]
      rfl
    · rw [hrun]
  · intro req user hauth hrole hbody
    have hadmin : requireAdmin user = .next () := by
      simp [requireAdmin, hrole, strictEq]
    simp only [createAnimalRoute, hauth, hadmin, hbody]


/-- Witness for C8: `COW` is stored as `Cow`, `dragon` is rejected. -/
theorem createAnimal_type_whitelist_witness :
    validFarmAnimals.contains (toLowerCase sampleEnv "COW") = true
    ∧ (∃ animal,
        createAnimal sampleEnv farmDb (animalBody "COW" 3)
          = (addItem farmDb "animals" animal, ⟨201, .obj animal⟩)
        ∧ get animal "animal_type" = .str "Cow")
    ∧ createAnimal sampleEnv farmDb (animalBody "dragon" 3) = (farmDb, invalidTypeReply) := by
  obtain ⟨animal, hrun, -, htype, -⟩ :=
    (createAnimal_type_whitelist sampleEnv farmDb (animalBody "COW" 3) "COW" "female"
      (by decide) (by decide) (by decide) (by decide)).1 (by decide)
  exact ⟨by decide, ⟨animal, hrun, htype⟩,
    ((createAnimal_type_whitelist sampleEnv farmDb (animalBody "dragon" 3) "dragon" "female"
      (by decide) (by decide) (by decide) (by decide)).2.1 (by decide)).1⟩

/-- C9 (counterexample).  `POST /animals` with age `-5` answers 201 and stores the
age `-5`; with age `0` and all other fields valid it answers 400 and stores
nothing. -/
theorem createAnimal_age_unchecked :
    (createAnimal sampleEnv farmDb (animalBody "cow" (-5))).2.status = 201
    ∧ ((getCollection (createAnimal sampleEnv farmDb (animalBody "cow" (-5))).1
          "animals").map (fun a => get a "age"))
        = [.undefined, .undefined, .num (-5)]
    ∧ createAnimal sampleEnv farmDb (animalBody "cow" 0)
        = (farmDb, fail 400
            "Missing required fields: animal_type, age, weight, price, animal_name, animal_gender")
    ∧ (patchAnimal sampleEnv farmDb (.str "animal_1") [("age", .num (-2))]).2.status = 200
    ∧ ((getCollection (patchAnimal sampleEnv farmDb (.str "animal_1")
          [("age", .num (-2))]).1 "animals").map (fun a => get a "age"))
        = [.num (-2), .undefined] := by
  decide

theorem patchAnimalKey_age (env : Env) (updates : Record) (st st1 : PatchState)
    (key : String) (h : patchAnimalKey env updates st key = .ok st1) :
    st1.filteredUpdates.lookup "age"
      = if key = "age" then some (ofInt (jsParseInt env (get updates "age")))
        else st.filteredUpdates.lookup "age" := by
  unfold patchAnimalKey at h
  by_cases hage : key = "age"
  · subst hage
    simp only [if_true, allowedAnimalUpdates] at h ⊢
    rw [if_pos (by decide)] at h
    injection h with h
    subst h
    exact lookup_setKey_self _ _ _
  · have hne : ("age" : String) ≠ key := fun e => hage e.symm
    simp only [hage, if_false] at h ⊢
    split_ifs at h with h1 h2 h3 h4
    · injection h with h
      subst h
      exact lookup_setKey_ne _ _ _ _ hne
    · split at h
      · split_ifs at h
        · unfold PatchState.send at h
          split at h
          · injection h with h
            subst h
            rfl
          · cases h
        · injection h with h
          subst h
          exact lookup_setKey_ne _ _ _ _ hne
      · cases h
    · split at h
      · split_ifs at h
        · unfold PatchState.send at h
          split at h
          · injection h with h
            subst h
            rfl
          · cases h
        · injection h with h
          subst h
          exact lookup_setKey_ne _ _ _ _ hne
      · cases h
    · injection h with h
      subst h
      exact lookup_setKey_ne _ _ _ _ hne
    · injection h with h
      subst h
      rfl

theorem patchAnimalKeys_age (env : Env) (updates : Record) :
    ∀ (keys : List String) (st st1 : PatchState),
      patchAnimalKeys env updates keys st = .ok st1 →
      st1.filteredUpdates.lookup "age"
        = if keys.contains "age" then some (ofInt (jsParseInt env (get updates "age")))
          else st.filteredUpdates.lookup "age" := by
  intro keys
  induction keys with
  | nil =>
    intro st st1 h
    simp only [patchAnimalKeys, Except.ok.injEq] at h
    subst h
    simp
  | cons key rest ih =>
    intro st st1 h
    rw [patchAnimalKeys] at h
    cases hk : patchAnimalKey env updates st key with
    | error e => simp [hk] at h
    | ok st0 =>
      simp only [hk] at h
      rw [ih st0 st1 h, patchAnimalKey_age env updates st st0 key hk]
      by_cases hage : key = "age"
      · subst hage
        simp
      · have h2 : ¬ ("age" : String) = key := fun e => hage e.symm
        by_cases hr : "age" ∈ rest
        · simp [hr]
        · simp [hage, hr, h2]


/-- `POST /animals` either answers with an error and leaves the document alone, or
appends the new animal and answers 201 with it. -/
theorem createAnimal_cases (env : Env) (db : Document) (body : Record) :
    (∃ r, createAnimal env db body = (db, r) ∧ r.status ≠ 201)
    ∨ ∃ t g, createAnimal env db body
        = (addItem db "animals" (newAnimal env body t g),
           ⟨201, .obj (newAnimal env body t g)⟩) := by
  unfold createAnimal
  simp only []
  split_ifs with h1
  · exact Or.inl ⟨_, rfl, by decide⟩
  · split
    · split_ifs with h2
      · exact Or.inl ⟨_, rfl, by decide⟩
      · split
        · split_ifs with h3
          · exact Or.inl ⟨_, rfl, by decide⟩
          · exact Or.inr ⟨_, _, rfl⟩
        · exact Or.inl ⟨_, rfl, by decide⟩
    · exact Or.inl ⟨_, rfl, by decide⟩

/-- `PATCH /animals/:id` either leaves the document alone or replaces the first
animal with the id by its merge with `filteredUpdates`. -/
theorem patchAnimal_cases (env : Env) (db : Document) (id : Val) (body : Record) :
    (patchAnimal env db id body).1 = db
    ∨ ∃ st index old,
        patchAnimalKeys env body (body.map Prod.fst) ⟨[], none⟩ = .ok st
        ∧ findIndex (fun item => strictEq (get item "id") id) (getCollection db "animals")
          = some index
        ∧ (getCollection db "animals")[index]? = some old
        ∧ (patchAnimal env db id body).1
            = updateCollection db "animals"
                ((getCollection db "animals").set index (spread old st.filteredUpdates)) := by
  unfold patchAnimal
  cases hk : patchAnimalKeys env body (body.map Prod.fst) ⟨[], none⟩ with
  | error e => exact Or.inl rfl
  | ok st =>
    simp only []
    split_ifs with h0
    · exact Or.inl rfl
    · unfold updateItem
      simp only []
      cases hfi : findIndex (fun item => strictEq (get item "id") id)
          (getCollection db "animals") with
      | none =>
        simp only []
        split_ifs <;> exact Or.inl rfl
      | some index =>
        simp only []
        cases hold : (getCollection db "animals")[index]? with
        | none =>
          simp only []
          split_ifs <;> exact Or.inl rfl
        | some old => exact Or.inr ⟨st, index, old, rfl, rfl, hold, rfl⟩

/-- On an integer of magnitude below `1e21`, `parseInt` is the identity. -/
theorem jsParseInt_ofInt (env : Env) (n : Int) (h : n.natAbs < 1000000000000000000000) :
    jsParseInt env (.num (Dyadic.ofInt n)) = some n := by
  by_cases h0 : n = 0
  · subst h0
    rfl
  · have hpos : 0 < n.natAbs := Int.natAbs_pos.2 h0
    have hr : (Dyadic.ofInt n).decimalRange = true := by
      simp only [Dyadic.decimalRange, Dyadic.ofInt, pow_zero, mul_one, decide_eq_true_eq]
      omega
    have ht : (Dyadic.ofInt n).trunc = n := by
      simp only [Dyadic.trunc, Dyadic.ofInt, pow_zero, Nat.div_one, Int.ofNat_eq_coe]
      split_ifs with hneg
      · omega
      · omega
    have hm : (Dyadic.ofInt n).m ≠ 0 := h0
    simp only [jsParseInt, hm, if_false, hr, if_true, ht]

/-- C9 (amended). An animal written by `POST /animals` has the age
`parseInt(body.age)`, and a request that is not answered 201 writes nothing; a
record changed by `PATCH /animals/:id` has the age `parseInt(body.age)` when the
body carries an `age` and its previous age otherwise.  `parseInt` yields an integer
of either sign or `NaN` (written `null`); on a number other than 0 of magnitude at
least `1e-6` and below `1e21` it is the integer part, so it is the identity on
integers of magnitude below `1e21`: no lower bound is checked.  `POST /animals`
accepts every integer age other than 0 of magnitude below `1e21` when the other
fields are valid, and stores it. -/
theorem animal_age_is_parseInt (env : Env) (db : Document) (body : Record) (id : Val) :
    ((createAnimal env db body).2.status = 201 →
      ∃ animal,
        createAnimal env db body = (addItem db "animals" animal, ⟨201, .obj animal⟩)
        ∧ getCollection (createAnimal env db body).1 "animals"
            = getCollection db "animals" ++ [animal]
        ∧ get animal "age" = ofInt (jsParseInt env (get body "age")))
    ∧ ((createAnimal env db body).2.status ≠ 201 → (createAnimal env db body).1 = db)
    ∧ ((patchAnimal env db id body).1 = db
        ∨ ∃ index old merged,
            findIndex (fun item => strictEq (get item "id") id) (getCollection db "animals")
              = some index
            ∧ (getCollection db "animals")[index]? = some old
            ∧ (patchAnimal env db id body).1
                = updateCollection db "animals"
                    ((getCollection db "animals").set index merged)
            ∧ get merged "age"
                = if (body.map Prod.fst).contains "age" then
                    ofInt (jsParseInt env (get body "age"))
                  else get old "age")
    ∧ (∀ v, ofInt (jsParseInt env v) = .null
        ∨ ∃ n : Int, ofInt (jsParseInt env v) = .num (Dyadic.ofInt n))
    ∧ (∀ x : Dyadic, x.m ≠ 0 → x.decimalRange = true →
        jsParseInt env (.num x) = some x.trunc)
    ∧ (∀ n : Int, n.natAbs < 1000000000000000000000 →
        ofInt (jsParseInt env (.num (Dyadic.ofInt n))) = .num (Dyadic.ofInt n))
    ∧ (∀ (n : Int) (t g : String), n ≠ 0 → n.natAbs < 1000000000000000000000 →
        get body "age" = .num (Dyadic.ofInt n) →
        get body "animal_type" = .str t → get body "animal_gender" = .str g →
        t ≠ "" → g ≠ "" → truthy (get body "weight") = true →
        truthy (get body "price") = true → truthy (get body "animal_name") = true →
        validFarmAnimals.contains (toLowerCase env t) = true →
        validGenders.contains (toLowerCase env g) = true →
        (createAnimal env db body).2.status = 201
        ∧ ∃ animal, getCollection (createAnimal env db body).1 "animals"
              = getCollection db "animals" ++ [animal]
            ∧ get animal "age" = .num (Dyadic.ofInt n)) := by
  refine ⟨?_, ?_, ?_, ?_, ?_, fun n hn => by rw [jsParseInt_ofInt env n hn]; rfl, ?_⟩
  · intro h
    rcases createAnimal_cases env db body with ⟨r, hr, hne⟩ | ⟨t, g, hrun⟩
    · rw [hr] at h
      exact absurd h hne
    · refine ⟨newAnimal env body t g, hrun, ?_, ?_⟩
      · rw [hrun]
        simp only [addItem]
        rw [getCollection_updateCollection_self]
      · simp [newAnimal, get, List.lookup]
  · intro h
    rcases createAnimal_cases env db body with ⟨r, hr, -⟩ | ⟨t, g, hrun⟩
    · rw [hr]
    · rw [hrun] at h
      exact absurd rfl h
  · rcases patchAnimal_cases env db id body with h | ⟨st, index, old, hk, hfi, hold, hdb⟩
    · exact Or.inl h
    · refine Or.inr ⟨index, old, spread old st.filteredUpdates, hfi, hold, hdb, ?_⟩
      have hage := patchAnimalKeys_age env body _ _ _ hk
      rw [get_spread, hage]
      by_cases hc : (body.map Prod.fst).contains "age" = true
      · simp only [hc, if_true]
      · simp only [hc, if_false, Bool.false_eq_true, List.lookup]
  · intro v
    cases jsParseInt env v with
    | none => exact Or.inl rfl
    | some n => exact Or.inr ⟨n, rfl⟩
  · intro x hx hr
    simp [jsParseInt, hx, hr]
  · intro n t g hn hlt hage htype hgender ht hg hw hp hname hwl hgl
    have hpresent : truthy (get body "animal_type") = true ∧ truthy (get body "age") = true
        ∧ truthy (get body "weight") = true ∧ truthy (get body "price") = true
        ∧ truthy (get body "animal_name") = true
        ∧ truthy (get body "animal_gender") = true := by
      refine ⟨?_, ?_, hw, hp, hname, ?_⟩
      · rw [htype]
        simpa [truthy] using ht
      · rw [hage]
        simpa [truthy, Dyadic.ofInt] using hn
      · rw [hgender]
        simpa [truthy] using hg
    have hrun := createAnimal_accepts env db body t g htype hgender hpresent hgl hwl
    refine ⟨by rw [hrun], newAnimal env body t g, ?_, ?_⟩
    · rw [hrun]
      simp only [addItem]
      rw [getCollection_updateCollection_self]
    · have h0 : get (newAnimal env body t g) "age"
          = ofInt (jsParseInt env (get body "age")) := by
        simp [newAnimal, get, List.lookup]
      rw [h0, hage, jsParseInt_ofInt env n hlt]
      rfl


theorem allowedUserUpdates_username (actor : Record) :
    (allowedUserUpdates actor).contains "username" = false := by
  unfold allowedUserUpdates
  split_ifs <;> decide

theorem allowedUserUpdates_password (actor : Record) :
    (allowedUserUpdates actor).contains "password" = false := by
  unfold allowedUserUpdates
  split_ifs <;> decide

theorem allowedUserUpdates_role (actor : Record)
    (h : strictEq (get actor "role") (.str "admin") = false) :
    (allowedUserUpdates actor).contains "role" = false := by
  unfold allowedUserUpdates
  rw [h]
  decide

/-- `PATCH /users/:username` either leaves the document alone or replaces the first
user with the username of the path by its merge with `filteredUpdates`. -/
theorem patchUser_cases (db : Document) (actor : Record) (username : Val)
    (updates : Record) :
    (patchUser db actor username updates).1 = db
    ∨ ∃ index old,
        findIndex (fun user => strictEq (get user "username") username)
            (getCollection db "users") = some index
        ∧ (getCollection db "users")[index]? = some old
        ∧ (patchUser db actor username updates).1
            = updateCollection db "users"
                ((getCollection db "users").set index
                  (spread old
                    (updates.filter (fun p => (allowedUserUpdates actor).contains p.1)))) := by
  unfold patchUser
  simp only []
  cases hfi : findIndex (fun user => strictEq (get user "username") username)
      (getCollection db "users") with
  | none =>
    simp only []
    split_ifs <;> exact Or.inl rfl
  | some index =>
    simp only []
    cases hold : (getCollection db "users")[index]? with
    | none =>
      simp only []
      split_ifs <;> exact Or.inl rfl
    | some old =>
      simp only []
      split_ifs
      all_goals first
        | exact Or.inl rfl
        | exact Or.inr ⟨index, old, rfl, hold, rfl⟩

/-- A field that `filteredUpdates` cannot carry keeps its value in the merge. -/
theorem get_spread_filtered (old updates : Record) (allowed : List String) (k : String)
    (hk : allowed.contains k = false) :
    get (spread old (updates.filter (fun p => allowed.contains p.1))) k = get old k := by
  rw [get_spread, lookup_filter_key k (fun key => allowed.contains key) updates, hk]
  simp

/-- What the handler of `PATCH /users/:username` can change. -/
theorem patchUser_frame (db : Document) (actor : Record) (username : Val)
    (updates : Record) :
    (getCollection (patchUser db actor username updates).1 "users").length
        = (getCollection db "users").length
    ∧ (∀ (i : Nat) (u u1 : Record), (getCollection db "users")[i]? = some u →
        (getCollection (patchUser db actor username updates).1 "users")[i]? = some u1 →
        get u1 "username" = get u "username" ∧ get u1 "password" = get u "password"
        ∧ (strictEq (get actor "role") (.str "admin") = false →
            get u1 "role" = get u "role"))
    ∧ (∀ i : Nat, (getCollection (patchUser db actor username updates).1 "users")[i]?
          ≠ (getCollection db "users")[i]? →
        findIndex (fun user => strictEq (get user "username") username)
          (getCollection db "users") = some i)
    ∧ (∀ c, c ≠ "users" →
        getCollection (patchUser db actor username updates).1 c = getCollection db c) := by
  rcases patchUser_cases db actor username updates with h | ⟨index, old, hfi, hold, hdb⟩
  · rw [h]
    refine ⟨rfl, ?_, ?_, fun c _ => rfl⟩
    · intro i u u1 hu hu1
      rw [hu] at hu1
      injection hu1 with hu1
      subst hu1
      exact ⟨rfl, rfl, fun _ => rfl⟩
    · intro i hne
      exact absurd rfl hne
  · rw [hdb]
    refine ⟨?_, ?_, ?_, ?_⟩
    · rw [getCollection_updateCollection_self]
      simp
    · intro i u u1 hu hu1
      rw [getCollection_updateCollection_self] at hu1
      by_cases hi : index = i
      · subst hi
        rw [hold] at hu
        injection hu with hu
        subst hu
        have hlt : index < (getCollection db "users").length :=
          (List.getElem?_eq_some.1 hold).1
        rw [List.getElem?_set_self hlt] at hu1
        injection hu1 with hu1
        subst hu1
        exact ⟨get_spread_filtered _ _ _ _ (allowedUserUpdates_username actor),
          get_spread_filtered _ _ _ _ (allowedUserUpdates_password actor),
          fun hrole => get_spread_filtered _ _ _ _ (allowedUserUpdates_role actor hrole)⟩
      · rw [List.getElem?_set_ne hi, hu] at hu1
        injection hu1 with hu1
        subst hu1
        exact ⟨rfl, rfl, fun _ => rfl⟩
    · intro i hne
      rw [getCollection_updateCollection_self] at hne
      by_cases hi : index = i
      · subst hi
        exact hfi
      · rw [List.getElem?_set_ne hi] at hne
        exact absurd rfl hne
    · intro c hc
      exact getCollection_updateCollection_ne _ _ _ _ hc

/-- C10. `PATCH /users/:username`, for every document and request: the users
collection keeps its length; every user keeps its username and its password; when
the authenticated actor is not an admin every user keeps its role; the only record
that can differ afterwards is the first user whose username is the path parameter;
and no other collection changes. -/
theorem patchUserRoute_frame (env : Env) (db : Document) (req : Request) :
    (getCollection (patchUserRoute env db req).1 "users").length
        = (getCollection db "users").length
    ∧ (∀ (i : Nat) (u u1 : Record), (getCollection db "users")[i]? = some u →
        (getCollection (patchUserRoute env db req).1 "users")[i]? = some u1 →
        get u1 "username" = get u "username" ∧ get u1 "password" = get u "password")
    ∧ (∀ actor, authenticateToken env db req.authorization = .next actor →
        get actor "role" ≠ .str "admin" →
        ∀ (i : Nat) (u u1 : Record), (getCollection db "users")[i]? = some u →
          (getCollection (patchUserRoute env db req).1 "users")[i]? = some u1 →
          get u1 "role" = get u "role")
    ∧ (∀ i : Nat, (getCollection (patchUserRoute env db req).1 "users")[i]?
          ≠ (getCollection db "users")[i]? →
        findIndex (fun user => strictEq (get user "username") (req.param "username"))
            (getCollection db "users") = some i
        ∧ ∃ u, (getCollection db "users")[i]? = some u
            ∧ get u "username" = req.param "username")
    ∧ (∀ c, c ≠ "users" →
        getCollection (patchUserRoute env db req).1 c = getCollection db c) := by
  have hsame : ∀ (d : Document), d = db →
      (getCollection d "users").length = (getCollection db "users").length
      ∧ (∀ (i : Nat) (u u1 : Record), (getCollection db "users")[i]? = some u →
          (getCollection d "users")[i]? = some u1 →
          get u1 "username" = get u "username" ∧ get u1 "password" = get u "password"
          ∧ get u1 "role" = get u "role")
      ∧ (∀ i : Nat, (getCollection d "users")[i]? ≠ (getCollection db "users")[i]? → False)
      ∧ (∀ c, c ≠ "users" → getCollection d c = getCollection db c) := by
    intro d hd
    subst hd
    refine ⟨rfl, ?_, fun i hne => hne rfl, fun c _ => rfl⟩
    intro i u u1 hu hu1
    rw [hu] at hu1
    injection hu1 with hu1
    subst hu1
    exact ⟨rfl, rfl, rfl⟩
  unfold patchUserRoute ownerRoute
  cases hauth : authenticateToken env db req.authorization with
  | respond r =>
    obtain ⟨h1, h2, h3, h4⟩ := hsame db rfl
    exact ⟨h1, fun i u u1 hu hu1 => ⟨(h2 i u u1 hu hu1).1, (h2 i u u1 hu hu1).2.1⟩,
      fun actor ha => Gate.noConfusion ha, fun i hne => (h3 i hne).elim, h4⟩
  | next user =>
    simp only []
    cases hgate : requireOwnerOrAdmin "username" user req with
    | respond r =>
      obtain ⟨h1, h2, h3, h4⟩ := hsame db rfl
      exact ⟨h1, fun i u u1 hu hu1 => ⟨(h2 i u u1 hu hu1).1, (h2 i u u1 hu hu1).2.1⟩,
        fun actor _ _ i u u1 hu hu1 => (h2 i u u1 hu hu1).2.2,
        fun i hne => (h3 i hne).elim, h4⟩
    | next _ =>
      simp only []
      obtain ⟨h1, h2, h3, h4⟩ := patchUser_frame db user (req.param "username") req.body
      refine ⟨h1, fun i u u1 hu hu1 => ⟨(h2 i u u1 hu hu1).1, (h2 i u u1 hu hu1).2.1⟩,
        ?_, ?_, h4⟩
      · intro actor ha hrole i u u1 hu hu1
        injection ha with ha
        subst ha
        refine (h2 i u u1 hu hu1).2.2 ?_
        cases hs : strictEq (get user "role") (.str "admin") with
        | false => rfl
        | true => exact absurd ((strictEq_str_iff _ _).1 hs) hrole
      · intro i hne
        have hfi := h3 i hne
        obtain ⟨u, hu, hpu, -⟩ := findIndex_some _ _ _ hfi
        exact ⟨hfi, u, hu, (strictEq_param_iff _ _ _).1 hpu⟩


/-- C6 (failing input).  From two users with distinct usernames and emails, `ann`
sets her email to the empty string (still distinct), then `bob` does the same: both
requests are answered 200, the empty email skips the `Email already in use` check,
and the two users end with the same email. -/
theorem patchUser_empty_email_twice :
    ((getCollection twoUsersDb "users").map (fun u => get u "username")).Nodup
    ∧ ((getCollection twoUsersDb "users").map (fun u => get u "email")).Nodup
    ∧ (patchUserRoute tokenEnv twoUsersDb (clearEmail "ann")).2.status = 200
    ∧ (getCollection (patchUserRoute tokenEnv twoUsersDb (clearEmail "ann")).1 "users").map
          (fun u => get u "email")
        = [.str "", .str "bob@farm.test"]
    ∧ (patchUserRoute tokenEnv
          (patchUserRoute tokenEnv twoUsersDb (clearEmail "ann")).1 (clearEmail "bob")).2.status
        = 200
    ∧ (getCollection (patchUserRoute tokenEnv
          (patchUserRoute tokenEnv twoUsersDb (clearEmail "ann")).1 (clearEmail "bob")).1
          "users").map (fun u => get u "email")
        = [.str "", .str ""]
    ∧ ¬ ((getCollection (patchUserRoute tokenEnv
          (patchUserRoute tokenEnv twoUsersDb (clearEmail "ann")).1 (clearEmail "bob")).1
          "users").map (fun u => get u "email")).Nodup := by
  decide


/-- C13 (failing input).  `PATCH /animals/animal_1` by an admin, with an animal type
outside the whitelist and a new price: the client is answered 400 with the
whitelist, yet the walk over the keys goes on, `updateItem` runs with the remaining
field and the price of the stored animal is changed from 500 to 1. -/
theorem patchAnimal_invalid_type_still_writes :
    (patchAnimalRoute tokenEnv adminDb dragonPatch).2 = invalidTypeReply
    ∧ (patchAnimalRoute tokenEnv adminDb dragonPatch).2.status = 400
    ∧ validFarmAnimals.contains (toLowerCase tokenEnv "dragon") = false
    ∧ getCollection adminDb "animals"
        = [[("id", .str "animal_1"), ("animal_type", .str "Cow"), ("price", .num 500)]]
    ∧ getCollection (patchAnimalRoute tokenEnv adminDb dragonPatch).1 "animals"
        = [[("id", .str "animal_1"), ("animal_type", .str "Cow"), ("price", .num 1)]]
    ∧ getCollection (patchAnimalRoute tokenEnv adminDb dragonPatch).1 "animals"
        ≠ getCollection adminDb "animals" := by
  decide

/-! ## User records in responses -/

theorem safeUser_keys (u : Record) : "password" ∉ (safeUser u).map Prod.fst := by
  unfold safeUser
  simp only [List.mem_map, List.mem_filter, not_exists, not_and]
  rintro ⟨k, v⟩ ⟨-, hk⟩ rfl
  simp at hk

theorem safeUser_lookup (u : Record) (k : String) (hk : k ≠ "password") :
    (safeUser u).lookup k = u.lookup k := by
  unfold safeUser
  rw [lookup_filter_key k (fun key => key != "password") u]
  simp [hk]

/-- `PATCH /users/:username` answers with an error body, or with the stored merged
record without its password. -/
theorem patchUser_reply (db : Document) (actor : Record) (username : Val)
    (updates : Record) :
    (∃ msg, (patchUser db actor username updates).2.body = errorBody msg)
    ∨ ∃ u ∈ getCollection (patchUser db actor username updates).1 "users",
        (patchUser db actor username updates).2.body = .obj (safeUser u) := by
  unfold patchUser
  simp only []
  cases hfi : findIndex (fun user => strictEq (get user "username") username)
      (getCollection db "users") with
  | none =>
    simp only []
    split_ifs <;> exact Or.inl ⟨_, rfl⟩
  | some index =>
    simp only []
    cases hold : (getCollection db "users")[index]? with
    | none =>
      simp only []
      split_ifs <;> exact Or.inl ⟨_, rfl⟩
    | some old =>
      simp only []
      have hlt : index < (getCollection db "users").length :=
        (List.getElem?_eq_some.1 hold).1
      split_ifs
      all_goals first
        | exact Or.inl ⟨_, rfl⟩
        | refine Or.inr ⟨_, ?_, rfl⟩
          rw [getCollection_updateCollection_self]
          exact List.mem_iff_getElem?.2 ⟨index, by simp [hlt]⟩


theorem authenticateToken_respond_body (env : Env) (db : Document)
    (authHeader : Option String) (r : Response)
    (h : authenticateToken env db authHeader = .respond r) :
    ∃ msg, r.body = errorBody msg := by
  unfold authenticateToken at h
  split at h
  · injection h with h
    exact ⟨_, by rw [← h]; rfl⟩
  · split at h
    · injection h with h
      exact ⟨_, by rw [← h]; rfl⟩
    · split at h
      · injection h with h
        exact ⟨_, by rw [← h]; rfl⟩
      · cases h

theorem requireAdmin_respond_body (user : Record) (r : Response)
    (h : requireAdmin user = .respond r) : ∃ msg, r.body = errorBody msg := by
  unfold requireAdmin at h
  split_ifs at h
  · injection h with h
    exact ⟨_, by rw [← h]; rfl⟩

theorem requireOwnerOrAdmin_respond_body (usernameParam : String) (user : Record)
    (req : Request) (r : Response)
    (h : requireOwnerOrAdmin usernameParam user req = .respond r) :
    ∃ msg, r.body = errorBody msg := by
  unfold requireOwnerOrAdmin at h
  simp only [] at h
  split_ifs at h
  · injection h with h
    exact ⟨_, by rw [← h]; rfl⟩

/-- C11. The bodies returned by `GET /users`, `GET /users/:username` and
`PATCH /users/:username` are an error body, or the stored user records (for
`PATCH`, the record as stored after the update) with the password left out: such a
record has no `password` key, keeps every other field with its value, and keeps the
order of the fields.  The two `GET` routes leave the document as it was. -/
theorem user_bodies_without_password (env : Env) (db : Document) (req : Request) :
    (∀ u : Record,
        "password" ∉ (safeUser u).map Prod.fst
        ∧ (∀ k, k ≠ "password" → (safeUser u).lookup k = u.lookup k)
        ∧ (∀ p ∈ u, p.1 ≠ "password" → p ∈ safeUser u)
        ∧ (safeUser u).Sublist u)
    ∧ ((∃ msg, (getUsersRoute env db req).2.body = errorBody msg)
        ∨ (getUsersRoute env db req).2.body
            = .arr ((getCollection db "users").map (fun u => Val.obj (safeUser u))))
    ∧ ((∃ msg, (getUserRoute env db req).2.body = errorBody msg)
        ∨ ∃ u ∈ getCollection db "users",
            (getUserRoute env db req).2.body = .obj (safeUser u))
    ∧ ((∃ msg, (patchUserRoute env db req).2.body = errorBody msg)
        ∨ ∃ u ∈ getCollection (patchUserRoute env db req).1 "users",
            (patchUserRoute env db req).2.body = .obj (safeUser u))
    ∧ (getUsersRoute env db req).1 = db
    ∧ (getUserRoute env db req).1 = db
    ∧ (∀ msg, "password" ∉ [("error", Val.str msg)].map Prod.fst
        ∧ errorBody msg = .obj [("error", .str msg)]) := by
  refine ⟨?_, ?_, ?_, ?_, ?_, ?_, ?_⟩
  · intro u
    refine ⟨safeUser_keys u, fun k hk => safeUser_lookup u k hk, ?_, List.filter_sublist _⟩
    intro p hp hne
    exact List.mem_filter.2 ⟨hp, by simpa using hne⟩
  · unfold getUsersRoute adminRoute
    cases hauth : authenticateToken env db req.authorization with
    | respond r => exact Or.inl (authenticateToken_respond_body env db _ r hauth)
    | next user =>
      simp only []
      cases hadmin : requireAdmin user with
      | respond r => exact Or.inl (requireAdmin_respond_body user r hadmin)
      | next _ => exact Or.inr rfl
  · unfold getUserRoute ownerRoute
    cases hauth : authenticateToken env db req.authorization with
    | respond r => exact Or.inl (authenticateToken_respond_body env db _ r hauth)
    | next user =>
      simp only []
      cases hgate : requireOwnerOrAdmin "username" user req with
      | respond r => exact Or.inl (requireOwnerOrAdmin_respond_body _ user req r hgate)
      | next _ =>
        simp only [getUser]
        cases hfind : findByField db "users" "username" (req.param "username") with
        | none => exact Or.inl ⟨_, rfl⟩
        | some u =>
          exact Or.inr ⟨u, List.mem_of_find?_eq_some hfind, rfl⟩
  · unfold patchUserRoute ownerRoute
    cases hauth : authenticateToken env db req.authorization with
    | respond r => exact Or.inl (authenticateToken_respond_body env db _ r hauth)
    | next user =>
      simp only []
      cases hgate : requireOwnerOrAdmin "username" user req with
      | respond r => exact Or.inl (requireOwnerOrAdmin_respond_body _ user req r hgate)
      | next _ => exact patchUser_reply db user (req.param "username") req.body
  · unfold getUsersRoute adminRoute
    cases authenticateToken env db req.authorization with
    | respond r => rfl
    | next user =>
      simp only []
      cases requireAdmin user with
      | respond r => rfl
      | next _ => rfl
  · unfold getUserRoute ownerRoute
    cases authenticateToken env db req.authorization with
    | respond r => rfl
    | next user =>
      simp only []
      cases requireOwnerOrAdmin "username" user req with
      | respond r => rfl
      | next _ =>
        simp only [getUser]
        cases findByField db "users" "username" (req.param "username") <;> rfl
  · intro msg
    exact ⟨by simp, rfl⟩


/-! ## Registration -/

/-- A registration whose required fields are present and whose username some stored
user has is answered 409 and writes nothing. -/
theorem register_conflict (env : Env) (db : Document) (body : Record)
    (hpresent : truthy (get body "username") = true ∧ truthy (get body "password") = true
        ∧ truthy (get body "email") = true ∧ truthy (get body "first") = true
        ∧ truthy (get body "last") = true)
    (hexists : ∃ u ∈ getCollection db "users",
        strictEq (get u "username") (get body "username") = true) :
    register env db body = (db, fail 409 "Username already exists") := by
  obtain ⟨h1, h2, h3, h4, h5⟩ := hpresent
  obtain ⟨u, hu, hmatch⟩ := hexists
  unfold register
  simp only [h1, h2, h3, h4, h5, Bool.not_true, Bool.or_self, Bool.false_eq_true, if_false]
  cases hfind : findByField db "users" "username" (get body "username") with
  | none =>
    have := List.find?_eq_none.1 hfind u hu
    simp [hmatch] at this
  | some _ => rfl

/-- `POST /auth/register` either answers with an error and writes nothing, or found
no user with the username, appends the new user and answers 201. -/
theorem register_cases (env : Env) (db : Document) (body : Record) :
    (∃ r, register env db body = (db, r) ∧ r.status ≠ 201)
    ∨ ∃ password,
        findByField db "users" "username" (get body "username") = none
        ∧ (register env db body).1 = addItem db "users" (newUser env body password)
        ∧ (register env db body).2.status = 201 := by
  unfold register
  simp only []
  split_ifs
  · exact Or.inl ⟨_, rfl, by decide⟩
  · cases hname : findByField db "users" "username" (get body "username") with
    | some _ => exact Or.inl ⟨_, rfl, by decide⟩
    | none =>
      simp only []
      cases hmail : findByField db "users" "email" (get body "email") with
      | some _ => exact Or.inl ⟨_, rfl, by decide⟩
      | none =>
        simp only []
        split
        · exact Or.inr ⟨_, trivial, rfl, rfl⟩
        · exact Or.inl ⟨_, rfl, by decide⟩

/-- C12 (counterexample).  Two registrations in a row whose username is the array
`["cat"]`, with different emails, are both answered 201, and afterwards two users
have that username: `findByField` compares with `===`, which is false between two
arrays. -/
theorem register_array_username_twice :
    (register sampleEnv twoUsersDb (catArrayBody "cat@farm.test")).2.status = 201
    ∧ (register sampleEnv (register sampleEnv twoUsersDb (catArrayBody "cat@farm.test")).1
          (catArrayBody "other@farm.test")).2.status = 201
    ∧ (getCollection (register sampleEnv
          (register sampleEnv twoUsersDb (catArrayBody "cat@farm.test")).1
          (catArrayBody "other@farm.test")).1 "users").map (fun u => get u "username")
        = [.str "ann", .str "bob", .arr [.str "cat"], .arr [.str "cat"]] := by
  decide

/-- C12 (amended). A registration with all required fields present whose username
some stored user already has (under `===`) is answered 409 `Username already
exists`, carries no token and leaves the document, hence the users collection, as
it was.  In particular, when a registration is answered 201 and its username is
equal to itself under `===` (a string, number or boolean, not an array or object),
a second registration for the same username (any other fields, all required ones
present) is answered 409, and afterwards exactly one user has that username. -/
theorem register_same_username (env env2 : Env) (db : Document) (body body2 : Record) :
    ((truthy (get body "username") = true ∧ truthy (get body "password") = true
        ∧ truthy (get body "email") = true ∧ truthy (get body "first") = true
        ∧ truthy (get body "last") = true) →
      (∃ u ∈ getCollection db "users",
          strictEq (get u "username") (get body "username") = true) →
      register env db body = (db, fail 409 "Username already exists")
      ∧ (register env db body).2.status = 409
      ∧ prop (register env db body).2.body "token" = .undefined
      ∧ getCollection (register env db body).1 "users" = getCollection db "users")
    ∧ (∀ name : Val, strictEq name name = true →
        get body "username" = name → get body2 "username" = name →
        (truthy (get body2 "username") = true ∧ truthy (get body2 "password") = true
          ∧ truthy (get body2 "email") = true ∧ truthy (get body2 "first") = true
          ∧ truthy (get body2 "last") = true) →
        (register env db body).2.status = 201 →
        register env2 (register env db body).1 body2
          = ((register env db body).1, fail 409 "Username already exists")
        ∧ (register env2 (register env db body).1 body2).2.status = 409
        ∧ ((getCollection (register env2 (register env db body).1 body2).1 "users").filter
            (fun u => strictEq (get u "username") name)).length = 1) := by
  constructor
  · intro hpresent hexists
    have hrun := register_conflict env db body hpresent hexists
    refine ⟨hrun, ?_, ?_, ?_⟩
    · rw [hrun]
      rfl
    · rw [hrun]
      rfl
    · rw [hrun]
  · intro name hself hname hname2 hpresent2 hcreated
    rcases register_cases env db body with ⟨r, hr, hne⟩ | ⟨password, hnone, hdb, -⟩
    · rw [hr] at hcreated
      exact absurd hcreated hne
    · have hnew : get (newUser env body password) "username" = name := by
        simp [newUser, get, List.lookup] at hname ⊢
        exact hname
      have hold : ∀ u ∈ getCollection db "users",
          strictEq (get u "username") name = false := by
        intro u hu
        rw [hname] at hnone
        have := List.find?_eq_none.1 hnone u hu
        simpa using this
      have husers : getCollection (register env db body).1 "users"
          = getCollection db "users" ++ [newUser env body password] := by
        rw [hdb]
        simp only [addItem]
        rw [getCollection_updateCollection_self]
      have hexists : ∃ u ∈ getCollection (register env db body).1 "users",
          strictEq (get u "username") (get body2 "username") = true := by
        refine ⟨newUser env body password, ?_, ?_⟩
        · rw [husers]
          simp
        · rw [hname2, hnew]
          exact hself
      have hrun := register_conflict env2 (register env db body).1 body2 hpresent2 hexists
      refine ⟨hrun, by rw [hrun]; rfl, ?_⟩
      rw [hrun]
      simp only []
      rw [husers, List.filter_append]
      have hnone2 : (getCollection db "users").filter
          (fun u => strictEq (get u "username") name) = [] := by
        rw [List.filter_eq_nil_iff]
        intro u hu
        simp [hold u hu]
      rw [hnone2]
      simp [List.filter_cons, hnew, hself]

/-- Witness for C12: `cat` registers twice, with two different emails. -/
theorem register_same_username_witness :
    (register tokenEnv twoUsersDb (catBody "cat@farm.test")).2.status = 201
    ∧ register sampleEnv (register tokenEnv twoUsersDb (catBody "cat@farm.test")).1
          (catBody "other@farm.test")
        = ((register tokenEnv twoUsersDb (catBody "cat@farm.test")).1,
           fail 409 "Username already exists")
    ∧ ((getCollection (register sampleEnv
          (register tokenEnv twoUsersDb (catBody "cat@farm.test")).1
          (catBody "other@farm.test")).1 "users").filter
        (fun u => strictEq (get u "username") (.str "cat"))).length = 1 := by
  have h := (register_same_username tokenEnv sampleEnv twoUsersDb (catBody "cat@farm.test")
    (catBody "other@farm.test")).2 (.str "cat") (by decide) (by decide) (by decide)
    (by decide) (by decide)
  exact ⟨by decide, h.1, h.2.2⟩

end OnlineStore
